import Mathlib

/-!
Verification of the perp-trader-grid core engine against its specification.

Shallow embedding notes:
* `Decimal` (bignumber.js `BigNumber`) is modelled as `ℚ`: add, subtract,
  multiply, negate, abs and comparisons are exact in bignumber.js, and
  `integerValue` with `ROUND_DOWN` / `ROUND_FLOOR` is modelled by truncation
  toward zero / floor respectively.
* Functions that `throw` are modelled in `Except String`.
* JavaScript `Map` objects (insertion-ordered, unique keys) are modelled as
  lists; `set` replaces in place or appends, `delete` removes by key.
* Asynchronous adapter calls are modelled by oracle parameters supplying the
  call's outcome; a rejected promise is an `Except.error`.

The file is organised as definitions first (translated from the TypeScript
sources named in each doc comment), then theorems.
-/

deriving instance DecidableEq for Except

namespace PerpGrid

/-- Order side, from `src/core/exchange/models.ts` (`OrderSide`). -/
inductive OrderSide where
  | BUY
  | SELL
deriving DecidableEq, Repr

/-- Unified order status, from `src/core/exchange/models.ts` (`OrderStatus`). -/
inductive OrderStatus where
  | PENDING_SEND
  | SENT
  | ACKED
  | PARTIALLY_FILLED
  | FILLED
  | CANCELLED
  | REJECTED
  | EXPIRED
  | UNKNOWN
deriving DecidableEq, Repr

/-- Terminal-status test, from `src/core/exchange/order-status.ts`
(`isTerminalOrderStatus`). -/
def isTerminalOrderStatus (status : OrderStatus) : Bool :=
  status = .FILLED || status = .CANCELLED || status = .REJECTED || status = .EXPIRED

/-- Input of the max-position admission check, from
`src/core/risk/position-guard.ts` (`MaxPositionCheckInput`). -/
structure MaxPositionCheckInput where
  side : OrderSide
  netPosition : ℚ
  pendingBuy : ℚ
  pendingSell : ℚ
  orderQuantity : ℚ
  maxPosition : ℚ
deriving DecidableEq, Repr

/-- Max-position admission rule, from `src/core/risk/position-guard.ts`
(`canPlaceByMaxPosition`). -/
def canPlaceByMaxPosition (input : MaxPositionCheckInput) : Bool :=
  match input.side with
  | .BUY => decide (input.netPosition + input.pendingBuy + input.orderQuantity ≤ input.maxPosition)
  | .SELL => decide (input.netPosition - input.pendingSell - input.orderQuantity ≥ -input.maxPosition)

/-- Truncation toward zero on `ℚ`, the meaning of bignumber.js
`integerValue(ROUND_DOWN)` ("rounds towards zero"). -/
def truncToward0 (q : ℚ) : ℤ :=
  if 0 ≤ q then ⌊q⌋ else ⌈q⌉

/-- Round a value down to a multiple of `step`, from
`src/infra/exchange/extended/extended-utils.ts` (`roundToStep`); the copy in
`src/infra/exchange/nado/nado-utils.ts` is textually identical.  The source
computes `value.dividedBy(step).integerValue(Decimal.ROUND_DOWN).multipliedBy(step)`
after rejecting `step ≤ 0`. -/
def roundToStep (value step : ℚ) : Except String ℚ :=
  if step ≤ 0 then .error "步长必须大于 0"
  else .ok ((truncToward0 (value / step) : ℚ) * step)

/-- The claimed floor semantics of `round_down`, written from the spec's words
for comparison with the implementation. -/
def roundToStepSpecFloor (value step : ℚ) : ℚ :=
  (⌊value / step⌋ : ℚ) * step

/-! ### Client-order-id format and recovery (grid-order-manager.ts) -/

/-- Rendering of `level.targetSide` in a template literal. -/
def sideName : OrderSide → String
  | .BUY => "BUY"
  | .SELL => "SELL"

/-- The instance id prefix `"<strategyId>-<symbol>-"`
(grid-order-manager.ts:87). -/
def orderIdPrefixOf (strategyId symbol : String) : String :=
  strategyId ++ "-" ++ symbol ++ "-"

/-- Client-order-id generator, from `nextClientOrderId`
(grid-order-manager.ts:622-625):
`"<prefix><SIDE>-<level_index>-<sequence>"`. -/
def nextClientOrderId (strategyId symbol : String) (targetSide : OrderSide)
    (index : Int) (sequence : Nat) : String :=
  orderIdPrefixOf strategyId symbol ++ sideName targetSide ++ "-" ++
    toString index ++ "-" ++ toString sequence

/-- Ownership test, from `isManagedOrder` (grid-order-manager.ts:630-632):
`clientOrderId.startsWith(this.orderIdPrefix)`, phrased on the character
lists (all ids here are ASCII, so character positions coincide with
JavaScript's UTF-16 positions). -/
def isManagedOrder (strategyId symbol clientOrderId : String) : Bool :=
  (orderIdPrefixOf strategyId symbol).toList.isPrefixOf clientOrderId.toList

/-- Matcher for the leading `(BUY|SELL)-` of the source regex
`/^(BUY|SELL)-(-?\\d+)-\\d+$/` (grid-order-manager.ts:761). -/
def stripSideTag : List Char → Option (List Char)
  | 'B' :: 'U' :: 'Y' :: '-' :: rest => some rest
  | 'S' :: 'E' :: 'L' :: 'L' :: '-' :: rest => some rest
  | _ => none

/-- Matcher for the capture group `(-?\\d+)` of the source regex.  In a
JavaScript regex literal `\\` matches one literal backslash character and the
following `d+` matches one or more letters `d`.  The greedy `-?` and `d+` need
no backtracking here: after `-?` the pattern requires a backslash (never `-`),
and after `d+` it requires `-`, which is never `d`.  Returns the captured text
and the remainder. -/
def matchEscapedGroup : List Char → Option (List Char × List Char)
  | '-' :: '\\' :: 'd' :: rest =>
      some ('-' :: '\\' :: 'd' :: rest.takeWhile (· = 'd'), rest.dropWhile (· = 'd'))
  | '\\' :: 'd' :: rest =>
      some ('\\' :: 'd' :: rest.takeWhile (· = 'd'), rest.dropWhile (· = 'd'))
  | _ => none

/-- Matcher for the trailing `-\\d+$` of the source regex: a `-`, a literal
backslash, then one or more `d` up to the end of the string. -/
def matchEscapedTail : List Char → Bool
  | '-' :: '\\' :: 'd' :: rest => rest.all (· = 'd')
  | _ => false

/-- Full match of `rest` against `/^(BUY|SELL)-(-?\\d+)-\\d+$/`, returning the
text of capture group 2 on success. -/
def regexLevelMatch (cs : List Char) : Option (List Char) :=
  (stripSideTag cs).bind fun r1 =>
    (matchEscapedGroup r1).bind fun gr =>
      if matchEscapedTail gr.2 then some gr.1 else none

/-- JavaScript `Number(s)` restricted to integer results, combined with the
`Number.isFinite` guard of the source: an optional `-` followed by a non-empty
run of decimal digits yields that integer; any other shape (in particular any
string containing a backslash, which `Number` turns into `NaN`) yields
`none`. -/
def jsNumberInt (cs : List Char) : Option Int :=
  match cs with
  | '-' :: ds =>
      if ds ≠ [] ∧ ds.all Char.isDigit then
        some (-(ds.foldl (fun a c => a * 10 + (c.toNat - '0'.toNat)) 0 : Nat))
      else none
  | ds =>
      if ds ≠ [] ∧ ds.all Char.isDigit then
        some ((ds.foldl (fun a c => a * 10 + (c.toNat - '0'.toNat)) 0 : Nat))
      else none

/-- Level-index recovery, from `parseLevelIndex`
(grid-order-manager.ts:756-767): reject non-owned prefixes, then match the
remainder against the regex and convert capture group 2 with `Number`. -/
def parseLevelIndex (strategyId symbol clientOrderId : String) : Option Int :=
  if isManagedOrder strategyId symbol clientOrderId then
    let rest := clientOrderId.toList.drop (orderIdPrefixOf strategyId symbol).toList.length
    match regexLevelMatch rest with
    | none => none
    | some g => jsNumberInt g
  else none

/-! ### Work queue (grid-order-manager.ts:205-248) -/

/-- Market quote, from `src/core/exchange/models.ts` (`ExchangeQuote`). -/
structure ExchangeQuote where
  exchange : String
  bid : ℚ
  ask : ℚ
  mark : ℚ
  ts : Int
deriving DecidableEq, Repr

/-- The queue-relevant fields of `GridOrderManager`. -/
structure QueueState where
  pendingQuote : Option ExchangeQuote
  pendingFillShiftSteps : List Int
  processing : Bool
deriving DecidableEq, Repr

/-- A unit of work the drain procedure can start. -/
inductive WorkUnit where
  | fillShift (steps : Int)
  | quote (q : ExchangeQuote)
deriving DecidableEq, Repr

/-- Slot write of `enqueueQuote` (grid-order-manager.ts:205-208): the single
pending-quote slot is overwritten (the drain call that follows is modelled
separately). -/
def enqueueQuote (s : QueueState) (q : ExchangeQuote) : QueueState :=
  { s with pendingQuote := some q }

/-- List push of `enqueueFilledShift` (grid-order-manager.ts:213-219). -/
def enqueueFilledShift (s : QueueState) (steps : Int) : QueueState :=
  if steps = 0 then s else { s with pendingFillShiftSteps := s.pendingFillShiftSteps ++ [steps] }

/-- Unit selection of `drainQueue` (grid-order-manager.ts:224-248): a no-op
while `processing` is set; otherwise the head of the fill-shift list is
dequeued first, then the pending quote; the chosen unit starts with
`processing := true`. -/
def drainSelect (s : QueueState) : Option (WorkUnit × QueueState) :=
  if s.processing then none
  else
    match s.pendingFillShiftSteps with
    | steps :: rest =>
        some (.fillShift steps, { s with pendingFillShiftSteps := rest, processing := true })
    | [] =>
        match s.pendingQuote with
        | some q => some (.quote q, { s with pendingQuote := none, processing := true })
        | none => none

/-- Runs the queue to exhaustion: each step is `drainSelect` followed by the
unit's execution and the `.finally` continuation, which clears `processing`
and drains again.  `exec` abstracts `processQuote`/`processFilledShift`; a
`some e` result models the unit's promise rejecting with `e`.  The drain chain
has no `catch` handler — `void unit.finally(...)` — so a rejection is neither
caught nor logged inside the queue: it escapes to the global scope, which the
returned trace records alongside each executed unit. -/
def runQueue (exec : WorkUnit → Option String) (s : QueueState) :
    QueueState × List (WorkUnit × Option String) :=
  if s.processing then (s, [])
  else
    match hf : s.pendingFillShiftSteps with
    | steps :: rest =>
        let u := WorkUnit.fillShift steps
        let res := runQueue exec { s with pendingFillShiftSteps := rest, processing := false }
        (res.1, (u, exec u) :: res.2)
    | [] =>
        match hq : s.pendingQuote with
        | some q =>
            let u := WorkUnit.quote q
            let res := runQueue exec { s with pendingQuote := none, processing := false }
            (res.1, (u, exec u) :: res.2)
        | none => (s, [])
termination_by s.pendingFillShiftSteps.length + (if s.pendingQuote.isSome then 1 else 0)
decreasing_by
  all_goals simp_all

/-! ### Grid geometry (src/core/grid/spacing.ts, src/core/grid/types.ts) -/

/-- Spacing mode, from `src/core/grid/types.ts` (`GridSpacingMode`). -/
inductive GridSpacingMode where
  | ABS
  | PERCENT
deriving DecidableEq, Repr

/-- Spacing configuration, from `src/core/grid/types.ts` (`GridSpacingConfig`). -/
structure GridSpacingConfig where
  mode : GridSpacingMode
  spacing : Option ℚ
  spacingPercent : Option ℚ
deriving DecidableEq, Repr

/-- Validation of the ABS spacing, from `requireAbsSpacing` (spacing.ts:7-15). -/
def requireAbsSpacing (config : GridSpacingConfig) : Except String ℚ :=
  match config.spacing with
  | none => .error "缺少绝对价差配置 spacing"
  | some s => if s ≤ 0 then .error "绝对价差必须大于 0" else .ok s

/-- Validation of the PERCENT spacing, from `requirePercentSpacing`
(spacing.ts:20-28). -/
def requirePercentSpacing (config : GridSpacingConfig) : Except String ℚ :=
  match config.spacingPercent with
  | none => .error "缺少百分比间距配置 spacingPercent"
  | some p => if p ≤ 0 then .error "百分比间距必须大于 0" else .ok p

/-- Multiplier base of the PERCENT grid, from `getPercentBase`
(spacing.ts:33-40). -/
def getPercentBase (config : GridSpacingConfig) : Except String ℚ :=
  match requirePercentSpacing config with
  | .error e => .error e
  | .ok spacingPercent =>
      let base := 1 + spacingPercent
      if base ≤ 1 then .error "百分比间距需保证倍率基数大于 1" else .ok base

/-- Level-price computation, from `buildLevelPrice` (spacing.ts:45-61).
`BigNumber.pow` with a natural exponent is exact, so the PERCENT factor is
`base ^ |index|` in `ℚ`. -/
def buildLevelPrice (center : ℚ) (index : Int) (config : GridSpacingConfig) :
    Except String ℚ :=
  if index = 0 then .ok center
  else
    match config.mode with
    | .ABS =>
        match requireAbsSpacing config with
        | .error e => .error e
        | .ok spacing => .ok (center + spacing * index)
    | .PERCENT =>
        match getPercentBase config with
        | .error e => .error e
        | .ok base =>
            let factor := base ^ index.natAbs
            .ok (if 0 < index then center * factor else center / factor)

/-- New center after a shift, from `shiftCenterPrice` (spacing.ts:66-82). -/
def shiftCenterPrice (center : ℚ) (steps : Int) (config : GridSpacingConfig) :
    Except String ℚ :=
  if steps = 0 then .ok center
  else
    match config.mode with
    | .ABS =>
        match requireAbsSpacing config with
        | .error e => .error e
        | .ok spacing => .ok (center + spacing * steps)
    | .PERCENT =>
        match getPercentBase config with
        | .error e => .error e
        | .ok base =>
            let factor := base ^ steps.natAbs
            .ok (if 0 < steps then center * factor else center / factor)

/-- Cross-step computation, from `calculateShiftSteps` (spacing.ts:87-116).
The ABS branch is exact decimal arithmetic
(`distance.dividedBy(spacing).integerValue(ROUND_FLOOR)` on a non-negative
distance is the floor).  The PERCENT branch computes
`floor(log(ratio)/log(base))` on IEEE doubles after `toNumber()` coercions;
binary floating point is not embeddable exactly, so the value of that whole
branch is taken as the parameter `percentSteps`. -/
def calculateShiftSteps (percentSteps : ℚ → ℚ → Int) (center mark : ℚ)
    (config : GridSpacingConfig) : Except String Int :=
  if center ≤ 0 ∨ mark ≤ 0 then .error "中心价与 mark 价格必须大于 0"
  else
    match config.mode with
    | .ABS =>
        match requireAbsSpacing config with
        | .error e => .error e
        | .ok spacing =>
            let diff := mark - center
            if diff = 0 then .ok 0
            else
              let distance := if diff < 0 then -diff else diff
              let steps := ⌊distance / spacing⌋
              .ok (if diff < 0 then -steps else steps)
    | .PERCENT =>
        match getPercentBase config with
        | .error e => .error e
        | .ok _ => .ok (percentSteps center mark)

/-! ### Grid state (src/core/grid/state.ts) -/

/-- Local order record, from `src/core/grid/types.ts` (`GridOrderState`). -/
structure GridOrderState where
  clientOrderId : String
  exchangeOrderId : Option String
  status : OrderStatus
  side : OrderSide
  price : ℚ
  quantity : ℚ
  levelIndex : Int
  placedAt : Int
  updatedAt : Int
deriving DecidableEq, Repr

/-- Grid level, from `src/core/grid/types.ts` (`GridLevel`); `order` is the
level's binding to its current order, `none` when unbound. -/
structure GridLevel where
  index : Int
  targetSide : Option OrderSide
  price : ℚ
  order : Option GridOrderState
deriving DecidableEq, Repr

/-- Shift result, from `src/core/grid/types.ts` (`GridShiftResult`). -/
structure GridShiftResult where
  centerPrice : ℚ
  steps : Int
  outOfRangeOrders : List GridOrderState
deriving DecidableEq, Repr

/-- State configuration, from `src/core/grid/types.ts` (`GridStateConfig`). -/
structure GridStateConfig extends GridSpacingConfig where
  strategyId : String
  symbol : String
  levels : Nat
  quantity : ℚ
deriving DecidableEq, Repr

/-- The mutable fields of `GridState` (state.ts:9-32); the two JavaScript
`Map`s are insertion-ordered lists with unique keys (`index` for levels,
`clientOrderId` for orders). -/
structure GridState where
  centerPrice : Option ℚ
  lastMark : Option ℚ
  lastQuoteAt : Option Int
  lastRebuildAt : Option Int
  levelMap : List GridLevel
  orderMap : List GridOrderState
deriving DecidableEq, Repr

/-- The `-i`/`+i` level pairs pushed by the loop of `buildLevels`
(state.ts:178-197), in insertion order `-1, 1, -2, 2, …`. -/
def buildLevelPairs (cfg : GridStateConfig) (centerPrice : ℚ) :
    Nat → Except String (List GridLevel)
  | 0 => .ok []
  | n + 1 =>
      match buildLevelPairs cfg centerPrice n with
      | .error e => .error e
      | .ok rest =>
          match buildLevelPrice centerPrice (-(n + 1 : Nat) : Int) cfg.toGridSpacingConfig with
          | .error e => .error e
          | .ok pb =>
              match buildLevelPrice centerPrice ((n + 1 : Nat) : Int) cfg.toGridSpacingConfig with
              | .error e => .error e
              | .ok ps =>
                  .ok (rest ++ [⟨(-(n + 1 : Nat) : Int), some .BUY, pb, none⟩,
                                ⟨((n + 1 : Nat) : Int), some .SELL, ps, none⟩])

/-- Symmetric level construction, from `buildLevels` (state.ts:170-199):
index 0 is the unbindable reference level, then `levels` pairs. -/
def buildLevels (cfg : GridStateConfig) (centerPrice : ℚ) :
    Except String (List GridLevel) :=
  match buildLevelPairs cfg centerPrice cfg.levels with
  | .error e => .error e
  | .ok pairs => .ok (⟨0, none, centerPrice, none⟩ :: pairs)

/-- `Map.get` on the level map (state.ts:62-64, `getLevel`). -/
def getLevel (s : GridState) (index : Int) : Option GridLevel :=
  s.levelMap.find? (fun l => l.index == index)

/-- `Map.get` on the order map (state.ts:69-71, `getOrder`). -/
def getOrder (s : GridState) (clientOrderId : String) : Option GridOrderState :=
  s.orderMap.find? (fun o => o.clientOrderId == clientOrderId)

/-- `Map.set` on the order map: replace in place when the key exists, else
append (JavaScript `Map` semantics). -/
def setMapOrder (orders : List GridOrderState) (o : GridOrderState) :
    List GridOrderState :=
  if orders.any (fun x => x.clientOrderId == o.clientOrderId) then
    orders.map (fun x => if x.clientOrderId == o.clientOrderId then o else x)
  else orders ++ [o]

/-- Mutation `level.order = b` of the unique level with the given index
(the first index match, mirroring the single `Map` entry). -/
def setLevelOrder : List GridLevel → Int → Option GridOrderState → List GridLevel
  | [], _, _ => []
  | l :: ls, index, b =>
      if l.index = index then { l with order := b } :: ls
      else l :: setLevelOrder ls index b

/-- Sorted level list, from `getLevels` (state.ts:55-57): `Array.from` of the
map values sorted ascending by index (insertion sort; indices are unique). -/
def insertLevelSorted (l : GridLevel) : List GridLevel → List GridLevel
  | [] => [l]
  | x :: xs => if l.index ≤ x.index then l :: x :: xs else x :: insertLevelSorted l xs

def getLevels (s : GridState) : List GridLevel :=
  s.levelMap.foldr insertLevelSorted []

/-- Order removal, from `removeOrder` (state.ts:105-115): resolve the level
index from the stored order (falling back to the supplied one), clear the
level's binding when it references this order, then delete the map entry. -/
def removeOrder (s : GridState) (clientOrderId : String) (levelIndex : Option Int) :
    GridState :=
  let existing := getOrder s clientOrderId
  let resolvedLevelIndex :=
    match existing with
    | some o => some o.levelIndex
    | none => levelIndex
  let levelMap' :=
    match resolvedLevelIndex with
    | none => s.levelMap
    | some li =>
        match s.levelMap.find? (fun l => l.index == li) with
        | some level =>
            if level.order.map (fun o => o.clientOrderId) = some clientOrderId then
              setLevelOrder s.levelMap li none
            else s.levelMap
        | none => s.levelMap
  { s with
    levelMap := levelMap',
    orderMap := s.orderMap.filter (fun x => !(x.clientOrderId == clientOrderId)) }

/-- Order upsert, from `upsertOrder` (state.ts:83-100): terminal orders are
removed and detached; otherwise the record is stored and bound to its level
exactly when the level's `targetSide` equals the order's side; a stale
binding of the same order on a non-matching level is cleared. -/
def upsertOrder (s : GridState) (order : GridOrderState) : GridState :=
  if isTerminalOrderStatus order.status then
    removeOrder s order.clientOrderId (some order.levelIndex)
  else
    let s1 := { s with orderMap := setMapOrder s.orderMap order }
    match s1.levelMap.find? (fun l => l.index == order.levelIndex) with
    | none => s1
    | some level =>
        match level.targetSide with
        | some ts =>
            if ts = order.side then
              { s1 with levelMap := setLevelOrder s1.levelMap order.levelIndex (some order) }
            else if level.order.map (fun o => o.clientOrderId) = some order.clientOrderId then
              { s1 with levelMap := setLevelOrder s1.levelMap order.levelIndex none }
            else s1
        | none =>
            if level.order.map (fun o => o.clientOrderId) = some order.clientOrderId then
              { s1 with levelMap := setLevelOrder s1.levelMap order.levelIndex none }
            else s1

/-- Grid rebuild, from `reset` (state.ts:37-42). -/
def GridState.reset (cfg : GridStateConfig) (s : GridState) (centerPrice : ℚ)
    (now : Int) : Except String GridState :=
  match buildLevels cfg centerPrice with
  | .error e => .error e
  | .ok lv =>
      .ok { s with
            centerPrice := some centerPrice,
            levelMap := lv,
            orderMap := [],
            lastRebuildAt := some now }

/-- Mark update, from `updateMark` (state.ts:47-50). -/
def updateMark (s : GridState) (mark : ℚ) (quoteTs : Int) : GridState :=
  { s with lastMark := some mark, lastQuoteAt := some quoteTs }

/-- The per-order body of the `orderMap.forEach` in `shiftCenter`
(state.ts:140-153); the accumulator carries the new level map, the next order
map, and the out-of-range list. -/
def shiftAcc (steps : Int)
    (acc : List GridLevel × List GridOrderState × List GridOrderState)
    (order : GridOrderState) :
    List GridLevel × List GridOrderState × List GridOrderState :=
  let newIndex := order.levelIndex - steps
  let updatedOrder := { order with levelIndex := newIndex }
  let nextOrders := acc.2.1 ++ [updatedOrder]
  match acc.1.find? (fun l => l.index == newIndex) with
  | some level =>
      match level.targetSide with
      | some ts =>
          if ts = updatedOrder.side then
            (setLevelOrder acc.1 newIndex (some updatedOrder), nextOrders, acc.2.2)
          else (acc.1, nextOrders, acc.2.2 ++ [updatedOrder])
      | none => (acc.1, nextOrders, acc.2.2 ++ [updatedOrder])
  | none => (acc.1, nextOrders, acc.2.2 ++ [updatedOrder])

/-- Center shift, from `shiftCenter` (state.ts:120-165). -/
def shiftCenter (cfg : GridStateConfig) (s : GridState) (steps : Int) (now : Int) :
    Except String (GridShiftResult × GridState) :=
  match s.centerPrice with
  | none => .error "中心价为空，无法平移网格"
  | some center =>
      if steps = 0 then .ok (⟨center, steps, []⟩, s)
      else
        match shiftCenterPrice center steps cfg.toGridSpacingConfig with
        | .error e => .error e
        | .ok newCenter =>
            match buildLevels cfg newCenter with
            | .error e => .error e
            | .ok newLevels =>
                let acc := s.orderMap.foldl (shiftAcc steps) (newLevels, [], [])
                .ok (⟨newCenter, steps, acc.2.2⟩,
                     { s with
                       centerPrice := some newCenter,
                       levelMap := acc.1,
                       orderMap := acc.2.1,
                       lastRebuildAt := some now })

/-! ### Observation helpers used in the theorems -/

/-- The immutable part of a level (everything except its order binding). -/
def levelShape (l : GridLevel) : Int × Option OrderSide × ℚ :=
  (l.index, l.targetSide, l.price)

/-- Whether the level table has a level at `index` whose `targetSide` is
`side` — the condition under which `shiftCenter` keeps a remapped order and
`upsertOrder` binds one. -/
def levelSideMatches (levels : List GridLevel) (index : Int) (side : OrderSide) : Bool :=
  match levels.find? (fun l => l.index == index) with
  | some level => decide (level.targetSide = some side)
  | none => false

/-- The remapping `level_index -= steps` applied by `shiftCenter` to every
existing order; all other fields (status included) are untouched. -/
def remapOrder (steps : Int) (o : GridOrderState) : GridOrderState :=
  { o with levelIndex := o.levelIndex - steps }

/-- Side consistency of a level table: every order bound to a level has the
level's target side. -/
def SideInvL (L : List GridLevel) : Prop :=
  ∀ l ∈ L, ∀ o, l.order = some o → l.targetSide = some o.side

/-- The side-consistency invariant of claim C5, restricted to what the code
maintains: every order bound to a level has the level's target side. -/
def SideInv (s : GridState) : Prop :=
  SideInvL s.levelMap

/-! ### Exchange snapshots and reconciliation (grid-order-manager.ts) -/

/-- Exchange order snapshot, from `src/core/exchange/models.ts`
(`ExchangeOrder`). -/
structure ExchangeOrder where
  accountId : Option String
  clientOrderId : String
  exchangeOrderId : Option String
  status : OrderStatus
  statusReason : Option String
  exchangeStatus : Option String
  side : OrderSide
  price : ℚ
  quantity : ℚ
  filledQuantity : Option ℚ
  avgFillPrice : Option ℚ
  updatedAt : Int
deriving DecidableEq, Repr

/-- Merge of an exchange-reported order into a grid order record, from
`mergeOrderFromExchange` (grid-order-manager.ts:734-751): the local
`levelIndex` and `placedAt` are preserved when known, everything else —
status, side, price, quantity, timestamps — is adopted from the exchange. -/
def mergeOrderFromExchange (strategyId symbol : String) (order : ExchangeOrder)
    (existing : Option GridOrderState) : GridOrderState :=
  let levelIndex :=
    match existing with
    | some e => e.levelIndex
    | none => (parseLevelIndex strategyId symbol order.clientOrderId).getD 0
  let placedAt :=
    match existing with
    | some e => e.placedAt
    | none => order.updatedAt
  { clientOrderId := order.clientOrderId
    exchangeOrderId := order.exchangeOrderId.or (existing.bind fun e => e.exchangeOrderId)
    status := order.status
    side := order.side
    price := order.price
    quantity := order.quantity
    levelIndex := levelIndex
    placedAt := placedAt
    updatedAt := order.updatedAt }

/-- Cancel-failure reconciliation, from `reconcileCancelFailure`
(grid-order-manager.ts:661-684).  `lookupRes` is the outcome of
`getOrderByClientOrderId`; a thrown lookup is only logged, leaving the state
untouched.  Returns the new state together with the record that was upserted
(`none` when nothing was written). -/
def reconcileCancelFailure (s : GridState) (order : GridOrderState)
    (lookupRes : Except String (Option ExchangeOrder)) (now : Int) :
    GridState × Option GridOrderState :=
  match lookupRes with
  | .error _ => (s, none)
  | .ok none =>
      let written := { order with status := OrderStatus.UNKNOWN, updatedAt := now }
      (upsertOrder s written, some written)
  | .ok (some latest) =>
      let written :=
        { order with
          status := latest.status,
          exchangeOrderId := latest.exchangeOrderId.or order.exchangeOrderId,
          updatedAt := latest.updatedAt }
      (upsertOrder s written, some written)

/-- The per-order body of the cancel loop, from `cancelOrders`
(grid-order-manager.ts:437-450): on adapter success mark CANCELLED, on a
thrown cancel run the cancel-failure reconciliation.  `cancelRes` is the
outcome of `cancelOrderByExternalId`.  Returns the new state and the record
that was upserted. -/
def cancelSingleOrder (s : GridState) (order : GridOrderState)
    (cancelRes : Except String Unit)
    (lookupRes : Except String (Option ExchangeOrder)) (now : Int) :
    GridState × Option GridOrderState :=
  match cancelRes with
  | .ok _ =>
      let written := { order with status := OrderStatus.CANCELLED, updatedAt := now }
      (upsertOrder s written, some written)
  | .error _ => reconcileCancelFailure s order lookupRes now

/-- The cancel loop, from `cancelOrders` (grid-order-manager.ts:429-452):
skip non-managed ids and ids already in the pending-cancel set; each iteration
adds the id to the set and removes it in `finally`, so successive iterations
see the original set.  The adapter outcomes are supplied per client id. -/
def cancelOrders (strategyId symbol : String) (pendingCancels : List String)
    (cancelRes : String → Except String Unit)
    (lookupRes : String → Except String (Option ExchangeOrder)) (now : Int) :
    GridState → List GridOrderState → GridState
  | s, [] => s
  | s, order :: rest =>
      if !(isManagedOrder strategyId symbol order.clientOrderId) then
        cancelOrders strategyId symbol pendingCancels cancelRes lookupRes now s rest
      else if pendingCancels.contains order.clientOrderId then
        cancelOrders strategyId symbol pendingCancels cancelRes lookupRes now s rest
      else
        let s' := (cancelSingleOrder s order (cancelRes order.clientOrderId)
          (lookupRes order.clientOrderId) now).1
        cancelOrders strategyId symbol pendingCancels cancelRes lookupRes now s' rest

/-! ### Mark-shift confirmation window and quote dispatch
(grid-order-manager.ts:253-350) -/

/-- Design value `markShiftConfirmMs` (grid-order-manager.ts:51). -/
def markShiftConfirmMs : Int := 2000

/-- The confirmation-window fields of `GridOrderManager`
(grid-order-manager.ts:52-53). -/
structure ShiftConfirmState where
  pendingMarkShiftStartedAt : Option Int
  pendingMarkShiftSign : Option Int
deriving DecidableEq, Repr

/-- Confirmation test, from `shouldConfirmMarkShift`
(grid-order-manager.ts:329-342): a first or sign-flipped signal (re)starts the
window and answers no; a same-signed signal younger than the window answers
no; otherwise the window is cleared and the answer is yes. -/
def shouldConfirmMarkShift (c : ShiftConfirmState) (steps : Int) (now : Int) :
    Bool × ShiftConfirmState :=
  let sign : Int := if steps > 0 then 1 else -1
  match c.pendingMarkShiftStartedAt with
  | none => (false, ⟨some now, some sign⟩)
  | some startedAt =>
      if c.pendingMarkShiftSign ≠ some sign then (false, ⟨some now, some sign⟩)
      else if now - startedAt < markShiftConfirmMs then (false, c)
      else (true, ⟨none, none⟩)

/-- Strategy configuration, from `src/core/grid/types.ts`
(`GridStrategyConfig`). -/
structure GridStrategyConfig extends GridSpacingConfig where
  levels : Nat
deriving DecidableEq, Repr

/-- The action `processQuote` takes after computing the cross-step count. -/
inductive QuoteAction where
  | firstQuote
  | stepsError (e : String)
  | syncOnly
  | fullRebuild
  | jitterSync
  | confirmShift (steps : Int)
deriving DecidableEq, Repr

/-- The dispatch of `processQuote` (grid-order-manager.ts:253-290) as a
function of the established center, the confirmation window and the quote
mark: no center → first-quote handling; `steps = 0` → reset window, sync
only; `|steps| ≥ levels` → reset window, full rebuild; `|steps| < 2` → reset
window, sync only (jitter); otherwise consult the confirmation window and
shift by `steps` (via `shiftCenter steps`) exactly on confirmation.  A thrown
step computation propagates (`stepsError`). -/
def processQuoteDecision (cfg : GridStrategyConfig) (percentSteps : ℚ → ℚ → Int)
    (centerPrice : Option ℚ) (confirm : ShiftConfirmState) (mark : ℚ) (now : Int) :
    QuoteAction × ShiftConfirmState :=
  match centerPrice with
  | none => (.firstQuote, confirm)
  | some center =>
      match calculateShiftSteps percentSteps center mark cfg.toGridSpacingConfig with
      | .error e => (.stepsError e, confirm)
      | .ok steps =>
          if steps = 0 then (.syncOnly, ⟨none, none⟩)
          else if steps.natAbs ≥ cfg.levels then (.fullRebuild, ⟨none, none⟩)
          else if steps.natAbs < 2 then (.jitterSync, ⟨none, none⟩)
          else
            let r := shouldConfirmMarkShift confirm steps now
            if r.1 then (.confirmShift steps, r.2) else (.syncOnly, r.2)

/-! ### Sync pass and placement (grid-order-manager.ts:485-617) -/

/-- Placement result, from `src/core/exchange/adapter.ts`
(`PlaceOrderResult`). -/
structure PlaceOrderResult where
  status : OrderStatus
  accountId : Option String
  clientOrderNum : Option Int
  exchangeOrderId : Option String
  statusReason : Option String
  errorCode : Option String
  errorMessage : Option String
  updatedAt : Int
deriving DecidableEq, Repr

/-- Grid configuration, from `src/infra/config/schema.ts` (`GridConfig`). -/
structure GridConfig where
  strategyId : String
  symbol : String
  levels : Nat
  spacingMode : GridSpacingMode
  spacing : Option ℚ
  spacingPercent : Option ℚ
  quantity : ℚ
  postOnly : Bool
  cancelTimeoutMs : Int
  maxPosition : ℚ
  maxOpenOrders : Nat
deriving DecidableEq, Repr

/-- The `GridState` configuration the manager constructs
(grid-order-manager.ts:78-86). -/
def GridConfig.toStateConfig (cfg : GridConfig) : GridStateConfig :=
  ⟨⟨cfg.spacingMode, cfg.spacing, cfg.spacingPercent⟩,
    cfg.strategyId, cfg.symbol, cfg.levels, cfg.quantity⟩

/-- The PENDING_SEND record `placeOrderForLevel` writes before submission
(grid-order-manager.ts:560-569). -/
def pendingOf (cfg : GridConfig) (level : GridLevel) (ts : OrderSide) (seq : Nat)
    (now : Int) : GridOrderState :=
  { clientOrderId := nextClientOrderId cfg.strategyId cfg.symbol ts level.index seq
    exchangeOrderId := none
    status := .PENDING_SEND
    side := ts
    price := level.price
    quantity := cfg.quantity
    levelIndex := level.index
    placedAt := now
    updatedAt := now }

/-- The REJECTED record written when the adapter's place call throws
(grid-order-manager.ts:592-597). -/
def rejectedOf (cfg : GridConfig) (level : GridLevel) (ts : OrderSide) (seq : Nat)
    (now : Int) : GridOrderState :=
  { pendingOf cfg level ts seq now with status := OrderStatus.REJECTED, updatedAt := now }

/-- Post-only crossover guard, from `shouldSkipPostOnlyOrder`
(grid-order-manager.ts:605-617): with `postOnly` off nothing is skipped; with
no known quote everything is; otherwise a BUY at or above the ask or a
non-BUY at or below the bid is skipped. -/
def shouldSkipPostOnlyOrder (cfg : GridConfig) (level : GridLevel)
    (latestQuote : Option ExchangeQuote) : Bool :=
  if !cfg.postOnly then false
  else
    match latestQuote with
    | none => true
    | some quote =>
        match level.targetSide with
        | some .BUY => decide (level.price ≥ quote.ask)
        | _ => decide (level.price ≤ quote.bid)

/-- Per-level placement, from `placeOrderForLevel`
(grid-order-manager.ts:551-600): skip levels without a target side or caught
by the post-only guard; otherwise write a PENDING_SEND record, submit
(outcome supplied by `placeRes`), and upsert either the adapter's result or a
REJECTED record when the call threw.  Returns the final record (as the source
returns it), the new state, and the next sequence number. -/
def placeOrderForLevel (cfg : GridConfig) (s : GridState) (level : GridLevel)
    (latestQuote : Option ExchangeQuote) (orderSequence : Nat) (now : Int)
    (placeRes : Except String PlaceOrderResult) :
    Option GridOrderState × GridState × Nat :=
  match level.targetSide with
  | none => (none, s, orderSequence)
  | some ts =>
      if shouldSkipPostOnlyOrder cfg level latestQuote then (none, s, orderSequence)
      else
        let clientOrderId := nextClientOrderId cfg.strategyId cfg.symbol ts level.index orderSequence
        let pendingOrder : GridOrderState :=
          { clientOrderId := clientOrderId
            exchangeOrderId := none
            status := .PENDING_SEND
            side := ts
            price := level.price
            quantity := cfg.quantity
            levelIndex := level.index
            placedAt := now
            updatedAt := now }
        let s1 := upsertOrder s pendingOrder
        match placeRes with
        | .ok result =>
            let updated :=
              { pendingOrder with
                exchangeOrderId := result.exchangeOrderId,
                status := result.status,
                updatedAt := result.updatedAt }
            (some updated, upsertOrder s1 updated, orderSequence + 1)
        | .error _ =>
            let rejected := { pendingOrder with status := OrderStatus.REJECTED, updatedAt := now }
            (some rejected, upsertOrder s1 rejected, orderSequence + 1)

/-- Active-order test per level, from `hasActiveOrderAtLevel`
(grid-order-manager.ts:535-539). -/
def hasActiveOrderAtLevel (s : GridState) (levelIndex : Int) : Bool :=
  s.orderMap.any (fun o => o.levelIndex == levelIndex && !(isTerminalOrderStatus o.status))

/-- Active-order count, from `countActiveOrders`
(grid-order-manager.ts:544-546). -/
def countActiveOrders (s : GridState) : Nat :=
  (s.orderMap.filter (fun o => !(isTerminalOrderStatus o.status))).length

/-- Pending quantity totals, from `countPendingQuantities`
(grid-order-manager.ts:772-786). -/
def countPendingQuantities (s : GridState) : ℚ × ℚ :=
  s.orderMap.foldl
    (fun acc o =>
      if isTerminalOrderStatus o.status then acc
      else if o.side = .BUY then (acc.1 + o.quantity, acc.2)
      else (acc.1, acc.2 + o.quantity))
    (0, 0)

/-- The level loop of `syncOrders` (grid-order-manager.ts:496-529): skip
levels without a target side, levels already holding an active order, and
levels the risk guard rejects; abort the pass at the open-order cap; after a
placement whose returned record is non-terminal, add its quantity to the
pending totals and bump the active count.  `placeRes` supplies the adapter
outcome for each sequence number. -/
def syncLoop (cfg : GridConfig) (latestQuote : Option ExchangeQuote)
    (placeRes : Nat → Except String PlaceOrderResult) (netPosition : ℚ) (now : Int) :
    List GridLevel → GridState → ℚ × ℚ → Nat → Nat → GridState × Nat
  | [], s, _, _, seq => (s, seq)
  | level :: rest, s, pending, activeCount, seq =>
      match level.targetSide with
      | none => syncLoop cfg latestQuote placeRes netPosition now rest s pending activeCount seq
      | some ts =>
          if hasActiveOrderAtLevel s level.index then
            syncLoop cfg latestQuote placeRes netPosition now rest s pending activeCount seq
          else if activeCount ≥ cfg.maxOpenOrders then (s, seq)
          else if !(canPlaceByMaxPosition
              ⟨ts, netPosition, pending.1, pending.2, cfg.quantity, cfg.maxPosition⟩) then
            syncLoop cfg latestQuote placeRes netPosition now rest s pending activeCount seq
          else
            let placed := placeOrderForLevel cfg s level latestQuote seq now (placeRes seq)
            match placed.1 with
            | none =>
                syncLoop cfg latestQuote placeRes netPosition now rest placed.2.1 pending
                  activeCount placed.2.2
            | some placedOrder =>
                if isTerminalOrderStatus placedOrder.status then
                  syncLoop cfg latestQuote placeRes netPosition now rest placed.2.1 pending
                    activeCount placed.2.2
                else
                  let pending' :=
                    if placedOrder.side = .BUY then (pending.1 + placedOrder.quantity, pending.2)
                    else (pending.1, pending.2 + placedOrder.quantity)
                  syncLoop cfg latestQuote placeRes netPosition now rest placed.2.1 pending'
                    (activeCount + 1) placed.2.2

/-- Sync pass, from `syncOrders` (grid-order-manager.ts:485-530): requires an
established center and a usable net position (`none` models the
unavailable-position skip); iterates the sorted levels with the pending
totals and active count of the current state. -/
def syncOrders (cfg : GridConfig) (s : GridState) (netPosition : Option ℚ)
    (latestQuote : Option ExchangeQuote)
    (placeRes : Nat → Except String PlaceOrderResult) (seq : Nat) (now : Int) :
    GridState × Nat :=
  match s.centerPrice with
  | none => (s, seq)
  | some _ =>
      match netPosition with
      | none => (s, seq)
      | some net =>
          syncLoop cfg latestQuote placeRes net now (getLevels s) s
            (countPendingQuantities s) (countActiveOrders s) seq

/-!
## Theorems
-/

/-! ### C1: max-position admission check -/

/-- C1: for every decimal input, the BUY branch admits iff
`net_position + pending_buy + order_qty ≤ max_position` and the SELL branch
admits iff `net_position − pending_sell − order_qty ≥ −max_position`, in exact
decimal arithmetic. -/
theorem canPlaceByMaxPosition_spec (net pb ps q mp : ℚ) :
    (canPlaceByMaxPosition ⟨.BUY, net, pb, ps, q, mp⟩ = true ↔ net + pb + q ≤ mp) ∧
    (canPlaceByMaxPosition ⟨.SELL, net, pb, ps, q, mp⟩ = true ↔ net - ps - q ≥ -mp) := by
  constructor <;> simp [canPlaceByMaxPosition]

/-! ### C6: round-down-to-step -/

theorem truncToward0_intCast (n : ℤ) : truncToward0 (n : ℚ) = n := by
  unfold truncToward0
  split <;> simp

/-- C6 counterexample: at `value = -5`, `step = 2` the implementation truncates
toward zero and returns `-4`, while `floor(value/step) * step = -6`; the
claimed bound `result ≤ value` also fails there. -/
theorem roundToStep_claim_false :
    roundToStep (-5) 2 = .ok (-4) ∧
    roundToStepSpecFloor (-5) 2 = -6 ∧
    ¬((-4 : ℚ) ≤ -5) := by
  have hdiv : ((-5 : ℚ) / 2) = -(5 / 2) := by norm_num
  have hceil : (⌈(-(5 / 2) : ℚ)⌉ : ℤ) = -2 := by
    rw [Int.ceil_eq_iff]
    constructor <;> norm_num
  have hfl : (⌊(-(5 / 2) : ℚ)⌋ : ℤ) = -3 := by
    rw [Int.floor_eq_iff]
    constructor <;> norm_num
  refine ⟨?_, ?_, by norm_num⟩
  · simp only [roundToStep, truncToward0, hdiv]
    rw [if_neg (by norm_num : ¬((2 : ℚ) ≤ 0)),
      if_neg (by norm_num : ¬((0 : ℚ) ≤ -(5 / 2))), hceil]
    norm_num
  · simp only [roundToStepSpecFloor, hdiv, hfl]
    norm_num

/-- C6 amended: for `step > 0` the function returns
`trunc(value/step) * step`, truncating toward zero; for `value ≥ 0` this equals
`floor(value/step) * step`, is `≤ value`, and the operation is idempotent for
all values; for `step ≤ 0` it fails with the invalid-step error instead of
returning a value. -/
theorem roundToStep_correct (value step : ℚ) (hstep : 0 < step) :
    roundToStep value step = .ok ((truncToward0 (value / step) : ℚ) * step) ∧
    (0 ≤ value → roundToStep value step = .ok (roundToStepSpecFloor value step)) ∧
    (0 ≤ value → ∀ r, roundToStep value step = .ok r → r ≤ value) ∧
    (∀ r, roundToStep value step = .ok r → roundToStep r step = .ok r) ∧
    (∀ s, s ≤ 0 → roundToStep value s = .error "步长必须大于 0") := by
  have hns : ¬ step ≤ 0 := not_le.mpr hstep
  refine ⟨by simp [roundToStep, hns], ?_, ?_, ?_, ?_⟩
  · intro hv
    have hq : 0 ≤ value / step := div_nonneg hv hstep.le
    simp [roundToStep, hns, roundToStepSpecFloor, truncToward0, hq]
  · intro hv r hr
    have hq : 0 ≤ value / step := div_nonneg hv hstep.le
    simp only [roundToStep, hns, if_false, Except.ok.injEq] at hr
    subst hr
    have hfl : (truncToward0 (value / step) : ℚ) ≤ value / step := by
      simp only [truncToward0, hq, if_pos]
      exact Int.floor_le _
    calc (truncToward0 (value / step) : ℚ) * step ≤ (value / step) * step :=
          mul_le_mul_of_nonneg_right hfl hstep.le
      _ = value := div_mul_cancel₀ _ (ne_of_gt hstep)
  · intro r hr
    simp only [roundToStep, hns, if_false, Except.ok.injEq] at hr
    subst hr
    have : (truncToward0 (value / step) : ℚ) * step / step = (truncToward0 (value / step) : ℚ) :=
      mul_div_cancel_right₀ _ (ne_of_gt hstep)
    simp [roundToStep, hns, this, truncToward0_intCast]
  · intro s hs
    simp [roundToStep, hs]

/-- C6 witness: the amended theorem instantiated at `value = 7`, `step = 2`. -/
theorem roundToStep_correct_witness :
    roundToStep 7 2 = .ok (roundToStepSpecFloor 7 2) :=
  (roundToStep_correct 7 2 (by norm_num)).2.1 (by norm_num)

/-! ### C7: id round-trip -/

/-- C7: the round-trip fails.  The source regex is written `(-?\\d+)-\\d+`, so
it matches literal backslashes rather than digits; parsing a freshly generated
id (here for side BUY, level −1, sequence 0 of instance `grid-default`/`BTC`)
returns `none` instead of the level index −1. -/
theorem parseLevelIndex_roundTrip_fails :
    parseLevelIndex "grid-default" "BTC"
      (nextClientOrderId "grid-default" "BTC" .BUY (-1) 0) = none ∧
    nextClientOrderId "grid-default" "BTC" .BUY (-1) 0 = "grid-default-BTC-BUY--1-0" := by
  constructor <;> decide

/-! ### C2: queue discipline -/

/-- C2: the pending-quote slot is single and latest-wins (an enqueue replaces
any unprocessed quote), `drainSelect` starts nothing while the `processing`
flag is set (at most one in-flight unit), and when fill shifts are pending the
drain dequeues a fill shift and leaves the pending quote untouched
(fills-before-quote priority). -/
theorem workQueue_discipline :
    (∀ (s : QueueState) (q : ExchangeQuote), (enqueueQuote s q).pendingQuote = some q) ∧
    (∀ s : QueueState, s.processing = true → drainSelect s = none) ∧
    (∀ (s : QueueState) (f : Int) (rest : List Int),
      s.processing = false → s.pendingFillShiftSteps = f :: rest →
      drainSelect s =
        some (.fillShift f, { s with pendingFillShiftSteps := rest, processing := true }) ∧
      ∀ u t, drainSelect s = some (u, t) → t.pendingQuote = s.pendingQuote) := by
  refine ⟨fun s q => rfl, fun s h => by simp [drainSelect, h], ?_⟩
  intro s f rest hproc hfills
  constructor
  · simp [drainSelect, hproc, hfills]
  · intro u t ht
    simp [drainSelect, hproc, hfills] at ht
    simp [← ht.2]

/-- C2 witness: the discipline theorem applied to a concrete queue state
holding one pending fill shift and a pending quote. -/
theorem workQueue_discipline_witness :
    drainSelect ⟨some ⟨"extended", 99, 101, 100, 0⟩, [3], false⟩ =
      some (.fillShift 3, ⟨some ⟨"extended", 99, 101, 100, 0⟩, [], true⟩) :=
  (workQueue_discipline.2.2 ⟨some ⟨"extended", 99, 101, 100, 0⟩, [3], false⟩ 3 [] rfl rfl).1

/-! ### C8: exceptions inside the work queue -/

theorem runQueue_processes_all (exec : WorkUnit → Option String) :
    ∀ (fills : List Int) (pq : Option ExchangeQuote),
      (runQueue exec ⟨pq, fills, false⟩).1 = ⟨none, [], false⟩ ∧
      (runQueue exec ⟨pq, fills, false⟩).2.map Prod.fst =
        fills.map WorkUnit.fillShift ++ (pq.map WorkUnit.quote).toList := by
  intro fills
  induction fills with
  | nil =>
      intro pq
      cases pq with
      | none => simp [runQueue]
      | some q => simp [runQueue]
  | cons f fs ih =>
      intro pq
      rw [runQueue.eq_def]
      simp [(ih pq).1, (ih pq).2]

/-- C8 counterexample: a unit whose execution rejects.  The drain chain is
`void unit.finally(...)` with no `catch`, so the rejection is not caught or
logged inside the queue: it escapes to the global scope, where the model's
trace records it. -/
theorem workQueue_catch_claim_false :
    ((runQueue (fun _ => some "boom") ⟨none, [2], false⟩).2.filterMap Prod.snd) = ["boom"] := by
  simp [runQueue]

/-- C8 amended: an exception thrown inside a work unit never reaches the
enqueuing caller (the enqueue functions return before any unit runs and the
drain chain is fire-and-forget), and the `.finally` continuation clears the
`processing` flag and drains again, so every pending unit is still executed,
fills before the quote, regardless of earlier failures; the queue ends empty
and idle.  The exception itself, however, is not caught or logged within the
queue — it escapes as an unhandled promise rejection. -/
theorem workQueue_error_handling (exec : WorkUnit → Option String) (s : QueueState)
    (h : s.processing = false) :
    (runQueue exec s).1 = ⟨none, [], false⟩ ∧
    (runQueue exec s).2.map Prod.fst =
      s.pendingFillShiftSteps.map WorkUnit.fillShift ++
        (s.pendingQuote.map WorkUnit.quote).toList := by
  obtain ⟨pq, fills, proc⟩ := s
  simp only at h
  subst h
  exact runQueue_processes_all exec fills pq

/-- C8 witness: a queue with a failing fill unit and a pending quote still
executes both units and ends idle. -/
theorem workQueue_error_handling_witness :
    (runQueue (fun _ => some "boom") ⟨some ⟨"extended", 99, 101, 100, 0⟩, [2], false⟩).1 =
        ⟨none, [], false⟩ ∧
    (runQueue (fun _ => some "boom")
        ⟨some ⟨"extended", 99, 101, 100, 0⟩, [2], false⟩).2.map Prod.fst =
      [.fillShift 2, .quote ⟨"extended", 99, 101, 100, 0⟩] := by
  simpa using workQueue_error_handling (fun _ => some "boom")
    ⟨some ⟨"extended", 99, 101, 100, 0⟩, [2], false⟩ rfl

/-! ### C4: shiftCenter — helper lemmas -/

theorem setLevelOrder_shape (L : List GridLevel) (i : Int) (b : Option GridOrderState) :
    (setLevelOrder L i b).map levelShape = L.map levelShape := by
  induction L with
  | nil => rfl
  | cons l ls ih =>
      by_cases h : l.index = i
      · simp [setLevelOrder, h, levelShape]
      · simp [setLevelOrder, h, ih]

theorem find?_shape_congr :
    ∀ (L₁ L₂ : List GridLevel), L₁.map levelShape = L₂.map levelShape →
      ∀ i : Int,
        (L₁.find? (fun l => l.index == i)).map levelShape =
          (L₂.find? (fun l => l.index == i)).map levelShape := by
  intro L₁
  induction L₁ with
  | nil =>
      intro L₂ h i
      cases L₂ with
      | nil => rfl
      | cons b bs => simp at h
  | cons a as ih =>
      intro L₂ h i
      cases L₂ with
      | nil => simp at h
      | cons b bs =>
          simp only [List.map_cons, List.cons.injEq] at h
          obtain ⟨hab, hrest⟩ := h
          have hidx : a.index = b.index := by
            have := congrArg Prod.fst hab
            simpa [levelShape] using this
          by_cases hcase : a.index = i
          · have ha : (a.index == i) = true := by simp [hcase]
            have hb : (b.index == i) = true := by simp [← hidx, hcase]
            simp [List.find?, ha, hb, hab]
          · have ha : (a.index == i) = false := by simp [hcase]
            have hb : (b.index == i) = false := by simp [← hidx, hcase]
            simp [List.find?, ha, hb, ih bs hrest i]

theorem levelSideMatches_congr (L₁ L₂ : List GridLevel)
    (h : L₁.map levelShape = L₂.map levelShape) (i : Int) (sd : OrderSide) :
    levelSideMatches L₁ i sd = levelSideMatches L₂ i sd := by
  have hfind := find?_shape_congr L₁ L₂ h i
  unfold levelSideMatches
  cases h₁ : L₁.find? (fun l => l.index == i) with
  | none =>
      cases h₂ : L₂.find? (fun l => l.index == i) with
      | none => rfl
      | some l₂ => rw [h₁, h₂] at hfind; simp at hfind
  | some l₁ =>
      cases h₂ : L₂.find? (fun l => l.index == i) with
      | none => rw [h₁, h₂] at hfind; simp at hfind
      | some l₂ =>
          rw [h₁, h₂] at hfind
          simp only [Option.map_some', Option.some.injEq] at hfind
          have : l₁.targetSide = l₂.targetSide := by
            have h21 := congrArg (fun p => p.2.1) hfind
            simpa [levelShape] using h21
          simp [this]

theorem shiftAcc_step (steps : Int) (L : List GridLevel)
    (accO accR : List GridOrderState) (o : GridOrderState) :
    shiftAcc steps (L, accO, accR) o =
      ((if levelSideMatches L (o.levelIndex - steps) o.side then
          setLevelOrder L (o.levelIndex - steps) (some (remapOrder steps o))
        else L),
        accO ++ [remapOrder steps o],
        accR ++ (if levelSideMatches L (o.levelIndex - steps) o.side then []
          else [remapOrder steps o])) := by
  unfold shiftAcc levelSideMatches remapOrder
  cases hf : L.find? (fun l => l.index == o.levelIndex - steps) with
  | none => simp [hf]
  | some level =>
      cases hts : level.targetSide with
      | none => simp [hf, hts]
      | some ts =>
          by_cases hside : ts = o.side
          · simp [hf, hts, hside]
          · simp [hf, hts, hside]

theorem foldl_shiftAcc (steps : Int) :
    ∀ (os : List GridOrderState) (L : List GridLevel) (accO accR : List GridOrderState),
      ((os.foldl (shiftAcc steps) (L, accO, accR)).1.map levelShape = L.map levelShape) ∧
      ((os.foldl (shiftAcc steps) (L, accO, accR)).2.1 = accO ++ os.map (remapOrder steps)) ∧
      ((os.foldl (shiftAcc steps) (L, accO, accR)).2.2 =
        accR ++ (os.map (remapOrder steps)).filter
          (fun o => !(levelSideMatches L o.levelIndex o.side))) := by
  intro os
  induction os with
  | nil => intro L accO accR; simp
  | cons o os ih =>
      intro L accO accR
      rw [List.foldl_cons, shiftAcc_step]
      by_cases hm : levelSideMatches L (o.levelIndex - steps) o.side
      · rw [if_pos hm, if_pos hm, List.append_nil]
        obtain ⟨ih1, ih2, ih3⟩ :=
          ih (setLevelOrder L (o.levelIndex - steps) (some (remapOrder steps o)))
            (accO ++ [remapOrder steps o]) accR
        have hshape := setLevelOrder_shape L (o.levelIndex - steps) (some (remapOrder steps o))
        refine ⟨by rw [ih1, hshape], by rw [ih2]; simp, ?_⟩
        rw [ih3]
        have hcongr : ∀ x ∈ os.map (remapOrder steps),
            (!(levelSideMatches
                (setLevelOrder L (o.levelIndex - steps) (some (remapOrder steps o)))
                x.levelIndex x.side)) =
              (!(levelSideMatches L x.levelIndex x.side)) := by
          intro x _
          rw [levelSideMatches_congr _ _ hshape]
        rw [List.filter_congr hcongr]
        have hhead : (!(levelSideMatches L (remapOrder steps o).levelIndex
            (remapOrder steps o).side)) = false := by
          simp [remapOrder, hm]
        simp [List.filter_cons, hhead]
      · rw [if_neg hm, if_neg hm]
        obtain ⟨ih1, ih2, ih3⟩ := ih L (accO ++ [remapOrder steps o]) (accR ++ [remapOrder steps o])
        refine ⟨ih1, by rw [ih2]; simp, ?_⟩
        rw [ih3]
        have hhead : (!(levelSideMatches L (remapOrder steps o).levelIndex
            (remapOrder steps o).side)) = true := by
          simp [remapOrder, hm]
        simp [List.filter_cons, hhead]

theorem find?_append_of_none {α : Type} {p : α → Bool} {l₁ : List α}
    (l₂ : List α) (h : l₁.find? p = none) :
    (l₁ ++ l₂).find? p = l₂.find? p := by
  induction l₁ with
  | nil => simp
  | cons a as ih =>
      cases hpa : p a with
      | true =>
          rw [List.find?_cons_of_pos _ hpa] at h
          exact absurd h (by simp)
      | false =>
          rw [List.find?_cons_of_neg _ (by simp [hpa])] at h
          rw [List.cons_append, List.find?_cons_of_neg _ (by simp [hpa])]
          exact ih h

theorem find?_append_of_some {α : Type} {p : α → Bool} {l₁ : List α}
    {x : α} (l₂ : List α) (h : l₁.find? p = some x) :
    (l₁ ++ l₂).find? p = some x := by
  induction l₁ with
  | nil => exact absurd h (by simp)
  | cons a as ih =>
      cases hpa : p a with
      | true =>
          rw [List.find?_cons_of_pos _ hpa] at h
          rw [List.cons_append, List.find?_cons_of_pos _ hpa]
          exact h
      | false =>
          rw [List.find?_cons_of_neg _ (by simp [hpa])] at h
          rw [List.cons_append, List.find?_cons_of_neg _ (by simp [hpa])]
          exact ih h

theorem buildLevelPairs_find (cfg : GridStateConfig) (center : ℚ) :
    ∀ (n : Nat) (L : List GridLevel), buildLevelPairs cfg center n = .ok L →
      ∀ i : Int,
        (L.find? (fun l => l.index == i)).map (fun l => (l.index, l.targetSide)) =
          (if 1 ≤ i.natAbs ∧ i.natAbs ≤ n then
            some (i, some (if i < 0 then OrderSide.BUY else OrderSide.SELL))
          else none) := by
  intro n
  induction n with
  | zero =>
      intro L h i
      simp only [buildLevelPairs, Except.ok.injEq] at h
      subst h
      have : ¬(1 ≤ i.natAbs ∧ i.natAbs ≤ 0) := by omega
      rw [if_neg this]
      rfl
  | succ n ih =>
      intro L h i
      simp only [buildLevelPairs] at h
      cases hr : buildLevelPairs cfg center n with
      | error e => rw [hr] at h; exact absurd h (by simp)
      | ok rest =>
          rw [hr] at h
          cases hpb : buildLevelPrice center (-(n + 1 : Nat) : Int) cfg.toGridSpacingConfig with
          | error e => rw [hpb] at h; exact absurd h (by simp)
          | ok pb =>
              rw [hpb] at h
              cases hps : buildLevelPrice center ((n + 1 : Nat) : Int) cfg.toGridSpacingConfig with
              | error e => rw [hps] at h; exact absurd h (by simp)
              | ok ps =>
                  rw [hps] at h
                  simp only [Except.ok.injEq] at h
                  subst h
                  cases hfr : rest.find? (fun l => l.index == i) with
                  | some l =>
                      have hthis := ih rest hr i
                      rw [hfr] at hthis
                      simp only [Option.map_some'] at hthis
                      rw [find?_append_of_some _ hfr, Option.map_some']
                      by_cases hcond : 1 ≤ i.natAbs ∧ i.natAbs ≤ n
                      · rw [if_pos hcond] at hthis
                        have hcond' : 1 ≤ i.natAbs ∧ i.natAbs ≤ n + 1 := ⟨hcond.1, by omega⟩
                        rw [if_pos hcond']
                        exact hthis
                      · rw [if_neg hcond] at hthis
                        exact absurd hthis (by simp)
                  | none =>
                      have hnone := ih rest hr i
                      rw [hfr] at hnone
                      simp only [Option.map_none'] at hnone
                      have hcond : ¬(1 ≤ i.natAbs ∧ i.natAbs ≤ n) := by
                        intro hc
                        rw [if_pos hc] at hnone
                        exact absurd hnone (by simp)
                      rw [find?_append_of_none _ hfr]
                      by_cases hbuy : i = (-(n + 1 : Nat) : Int)
                      · subst hbuy
                        have hcond' : 1 ≤ (-(n + 1 : Nat) : Int).natAbs ∧
                            (-(n + 1 : Nat) : Int).natAbs ≤ n + 1 := by omega
                        have hneg : (-(n + 1 : Nat) : Int) < 0 := by omega
                        rw [if_pos hcond', if_pos hneg]
                        simp [List.find?]
                      · by_cases hsell : i = ((n + 1 : Nat) : Int)
                        · subst hsell
                          have hcond' : 1 ≤ ((n + 1 : Nat) : Int).natAbs ∧
                              ((n + 1 : Nat) : Int).natAbs ≤ n + 1 := by omega
                          have hpos : ¬(((n + 1 : Nat) : Int) < 0) := by omega
                          rw [if_pos hcond', if_neg hpos]
                          simp only [List.find?]
                          split
                          · next heq =>
                              rw [beq_iff_eq] at heq
                              omega
                          · split
                            · simp
                            · next heq =>
                                rw [beq_eq_false_iff_ne] at heq
                                exact absurd rfl heq
                        · have h1 : (-(n + 1 : Nat) : Int) ≠ i := fun hc => hbuy hc.symm
                          have h2 : (((n + 1 : Nat) : Int)) ≠ i := fun hc => hsell hc.symm
                          have hcond' : ¬(1 ≤ i.natAbs ∧ i.natAbs ≤ n + 1) := by omega
                          rw [if_neg hcond']
                          simp only [List.find?]
                          split
                          · next heq =>
                              rw [beq_iff_eq] at heq
                              omega
                          · split
                            · next heq =>
                                rw [beq_iff_eq] at heq
                                omega
                            · rfl

theorem levelSideMatches_buildLevels (cfg : GridStateConfig) (center : ℚ)
    (L : List GridLevel) (h : buildLevels cfg center = .ok L) (i : Int) (sd : OrderSide) :
    levelSideMatches L i sd = true ↔
      (i ≠ 0 ∧ i.natAbs ≤ cfg.levels ∧
        sd = (if i < 0 then OrderSide.BUY else OrderSide.SELL)) := by
  unfold buildLevels at h
  cases hp : buildLevelPairs cfg center cfg.levels with
  | error e => rw [hp] at h; exact absurd h (by simp)
  | ok pairs =>
      rw [hp] at h
      simp only [Except.ok.injEq] at h
      subst h
      unfold levelSideMatches
      by_cases hzero : i = 0
      · subst hzero
        simp [List.find?]
      · have h0 : ((0 : Int) == i) = false := by simp [Ne.symm hzero]
        simp only [List.find?, h0]
        have := buildLevelPairs_find cfg center cfg.levels pairs hp i
        cases hfr : pairs.find? (fun l => l.index == i) with
        | none =>
            rw [hfr] at this
            simp only [Option.map_none'] at this
            have hcond : ¬(1 ≤ i.natAbs ∧ i.natAbs ≤ cfg.levels) := by
              intro hc
              rw [if_pos hc] at this
              exact absurd this (by simp)
            simp only [Bool.false_eq_true, false_iff]
            intro hc
            exact hcond ⟨by omega, hc.2.1⟩
        | some l =>
            rw [hfr] at this
            simp only [Option.map_some'] at this
            by_cases hcond : 1 ≤ i.natAbs ∧ i.natAbs ≤ cfg.levels
            · rw [if_pos hcond] at this
              simp only [Option.some.injEq] at this
              have hts : l.targetSide = some (if i < 0 then OrderSide.BUY else OrderSide.SELL) := by
                have h2 := congrArg Prod.snd this
                simpa using h2
              simp only [hts, decide_eq_true_eq, Option.some.injEq]
              constructor
              · intro hsd
                exact ⟨hzero, hcond.2, hsd.symm⟩
              · intro hc
                exact hc.2.2.symm
            · rw [if_neg hcond] at this
              exact absurd this (by simp)

/-- C4: for every state with an established center and every `steps ≠ 0`,
`shiftCenter` succeeds (given the geometry succeeds), rebuilds the level table
around the new center (same indices, target sides and prices as a fresh
build), remaps every existing order's `level_index` to `level_index − steps`
without touching any other field (in particular no status changes), and
collects into `out_of_range_orders` exactly the remapped orders whose new
index has no level with the order's side — characterised as: index outside
`[−N, +N]`, index 0, or side mismatch. -/
theorem shiftCenter_spec (cfg : GridStateConfig) (s : GridState) (steps now : Int)
    (center : ℚ) (hc : s.centerPrice = some center) (hsteps : steps ≠ 0)
    (newCenter : ℚ)
    (hnc : shiftCenterPrice center steps cfg.toGridSpacingConfig = .ok newCenter)
    (newLevels : List GridLevel) (hnl : buildLevels cfg newCenter = .ok newLevels) :
    ∃ r s', shiftCenter cfg s steps now = .ok (r, s') ∧
      r.centerPrice = newCenter ∧ r.steps = steps ∧
      s'.centerPrice = some newCenter ∧
      s'.levelMap.map levelShape = newLevels.map levelShape ∧
      s'.orderMap = s.orderMap.map (remapOrder steps) ∧
      r.outOfRangeOrders = (s.orderMap.map (remapOrder steps)).filter
        (fun o => !(levelSideMatches newLevels o.levelIndex o.side)) ∧
      (∀ i sd, levelSideMatches newLevels i sd = true ↔
        (i ≠ 0 ∧ i.natAbs ≤ cfg.levels ∧
          sd = (if i < 0 then OrderSide.BUY else OrderSide.SELL))) := by
  obtain ⟨h1, h2, h3⟩ := foldl_shiftAcc steps s.orderMap newLevels [] []
  have heq : shiftCenter cfg s steps now =
      .ok (⟨newCenter, steps, (s.orderMap.foldl (shiftAcc steps) (newLevels, [], [])).2.2⟩,
        { s with
          centerPrice := some newCenter,
          levelMap := (s.orderMap.foldl (shiftAcc steps) (newLevels, [], [])).1,
          orderMap := (s.orderMap.foldl (shiftAcc steps) (newLevels, [], [])).2.1,
          lastRebuildAt := some now }) := by
    simp only [shiftCenter, hc, if_neg hsteps, hnc, hnl]
  exact ⟨_, _, heq, rfl, rfl, rfl, h1, by simpa using h2, by simpa using h3,
    fun i sd => levelSideMatches_buildLevels cfg newCenter newLevels hnl i sd⟩

/-- C4 witness: `shiftCenter_spec` applied to an ABS grid (spacing 10, one
level per side) at center 100 holding one SELL order at level +1, shifted by
one step. -/
theorem shiftCenter_spec_witness :
    ∃ r s', shiftCenter ⟨⟨.ABS, some 10, none⟩, "grid-default", "BTC", 1, 1⟩
        ⟨some 100, none, none, none, [],
          [⟨"grid-default-BTC-SELL-1-0", none, .ACKED, .SELL, 110, 1, 1, 0, 0⟩]⟩ 1 5 = .ok (r, s') ∧
      r.centerPrice = 110 ∧ r.steps = 1 ∧
      s'.centerPrice = some 110 ∧
      s'.levelMap.map levelShape =
        ([⟨0, none, 110, none⟩, ⟨-1, some .BUY, 100, none⟩,
          ⟨1, some .SELL, 120, none⟩] : List GridLevel).map levelShape ∧
      s'.orderMap =
        ([⟨"grid-default-BTC-SELL-1-0", none, .ACKED, .SELL, 110, 1, 1, 0, 0⟩] :
            List GridOrderState).map (remapOrder 1) ∧
      r.outOfRangeOrders =
        (([⟨"grid-default-BTC-SELL-1-0", none, .ACKED, .SELL, 110, 1, 1, 0, 0⟩] :
            List GridOrderState).map (remapOrder 1)).filter
          (fun o => !(levelSideMatches
            [⟨0, none, 110, none⟩, ⟨-1, some .BUY, 100, none⟩, ⟨1, some .SELL, 120, none⟩]
            o.levelIndex o.side)) ∧
      (∀ i sd, levelSideMatches
          [⟨0, none, 110, none⟩, ⟨-1, some .BUY, 100, none⟩, ⟨1, some .SELL, 120, none⟩]
          i sd = true ↔
        (i ≠ 0 ∧ i.natAbs ≤ 1 ∧
          sd = (if i < 0 then OrderSide.BUY else OrderSide.SELL))) :=
  shiftCenter_spec ⟨⟨.ABS, some 10, none⟩, "grid-default", "BTC", 1, 1⟩
    ⟨some 100, none, none, none, [],
      [⟨"grid-default-BTC-SELL-1-0", none, .ACKED, .SELL, 110, 1, 1, 0, 0⟩]⟩ 1 5
    100 rfl (by decide) 110 (by norm_num [shiftCenterPrice, requireAbsSpacing])
    [⟨0, none, 110, none⟩, ⟨-1, some .BUY, 100, none⟩, ⟨1, some .SELL, 120, none⟩]
    (by norm_num [buildLevels, buildLevelPairs, buildLevelPrice, requireAbsSpacing])

/-! ### C5: order/level binding invariant -/

theorem sideInvL_setLevelOrder_none (L : List GridLevel) (i : Int)
    (hinv : SideInvL L) : SideInvL (setLevelOrder L i none) := by
  induction L with
  | nil => exact hinv
  | cons a as ih =>
      unfold setLevelOrder
      by_cases ha : a.index = i
      · rw [if_pos ha]
        intro l hl o ho
        rcases List.mem_cons.mp hl with heq | hmem
        · rw [heq] at ho
          exact absurd ho (by simp)
        · exact hinv l (List.mem_cons.mpr (Or.inr hmem)) o ho
      · rw [if_neg ha]
        intro l hl o ho
        rcases List.mem_cons.mp hl with heq | hmem
        · exact hinv l (List.mem_cons.mpr (Or.inl heq)) o ho
        · exact ih (fun x hx => hinv x (List.mem_cons.mpr (Or.inr hx))) l hmem o ho

theorem sideInvL_setLevelOrder_some (L : List GridLevel) (i : Int) (o : GridOrderState)
    (lv : GridLevel) (hfind : L.find? (fun l => l.index == i) = some lv)
    (hside : lv.targetSide = some o.side) (hinv : SideInvL L) :
    SideInvL (setLevelOrder L i (some o)) := by
  induction L with
  | nil => exact absurd hfind (by simp)
  | cons a as ih =>
      unfold setLevelOrder
      by_cases ha : a.index = i
      · rw [if_pos ha]
        rw [@List.find?_cons_of_pos _ (fun l => l.index == i) a as (by simp [ha]),
          Option.some.injEq] at hfind
        intro l hl o' ho'
        rcases List.mem_cons.mp hl with heq | hmem
        · rw [heq] at ho' ⊢
          simp only [Option.some.injEq] at ho'
          subst ho'
          rw [← hfind] at hside
          exact hside
        · exact hinv l (List.mem_cons.mpr (Or.inr hmem)) o' ho'
      · rw [if_neg ha]
        rw [@List.find?_cons_of_neg _ (fun l => l.index == i) a as (by simp [ha])] at hfind
        intro l hl o' ho'
        rcases List.mem_cons.mp hl with heq | hmem
        · exact hinv l (List.mem_cons.mpr (Or.inl heq)) o' ho'
        · exact ih hfind (fun x hx => hinv x (List.mem_cons.mpr (Or.inr hx))) l hmem o' ho'

theorem removeOrder_levelMap (s : GridState) (cid : String) (li : Option Int) :
    (removeOrder s cid li).levelMap = s.levelMap ∨
    ∃ j, (removeOrder s cid li).levelMap = setLevelOrder s.levelMap j none := by
  unfold removeOrder
  dsimp only
  split
  · exact Or.inl rfl
  · split
    · split
      · exact Or.inr ⟨_, rfl⟩
      · exact Or.inl rfl
    · exact Or.inl rfl

theorem removeOrder_preserves_sideInv (s : GridState) (cid : String) (li : Option Int)
    (hinv : SideInv s) : SideInv (removeOrder s cid li) := by
  show SideInvL (removeOrder s cid li).levelMap
  rcases removeOrder_levelMap s cid li with h | ⟨j, h⟩
  · rw [h]
    exact hinv
  · rw [h]
    exact sideInvL_setLevelOrder_none _ _ hinv

theorem upsertOrder_levelMap (s : GridState) (o : GridOrderState) :
    (upsertOrder s o).levelMap = s.levelMap ∨
    (∃ j, (upsertOrder s o).levelMap = setLevelOrder s.levelMap j none) ∨
    (∃ level, s.levelMap.find? (fun l => l.index == o.levelIndex) = some level ∧
      level.targetSide = some o.side ∧
      (upsertOrder s o).levelMap = setLevelOrder s.levelMap o.levelIndex (some o)) := by
  unfold upsertOrder
  dsimp only
  split
  · rcases removeOrder_levelMap s o.clientOrderId (some o.levelIndex) with h | ⟨j, h⟩
    · exact Or.inl h
    · exact Or.inr (Or.inl ⟨j, h⟩)
  · split
    · exact Or.inl rfl
    · next level heq =>
        split
        · next ts hts =>
            split
            · next hside =>
                exact Or.inr (Or.inr ⟨level, heq, by rw [hts, hside], rfl⟩)
            · split
              · exact Or.inr (Or.inl ⟨o.levelIndex, rfl⟩)
              · exact Or.inl rfl
        · split
          · exact Or.inr (Or.inl ⟨o.levelIndex, rfl⟩)
          · exact Or.inl rfl

theorem upsertOrder_preserves_sideInv (s : GridState) (o : GridOrderState)
    (hinv : SideInv s) : SideInv (upsertOrder s o) := by
  show SideInvL (upsertOrder s o).levelMap
  rcases upsertOrder_levelMap s o with h | ⟨j, h⟩ | ⟨level, hfind, hside, h⟩
  · rw [h]
    exact hinv
  · rw [h]
    exact sideInvL_setLevelOrder_none _ _ hinv
  · rw [h]
    exact sideInvL_setLevelOrder_some s.levelMap o.levelIndex o level hfind hside hinv

theorem levelSideMatches_find (L : List GridLevel) (i : Int) (sd : OrderSide)
    (h : levelSideMatches L i sd = true) :
    ∃ lv, L.find? (fun l => l.index == i) = some lv ∧ lv.targetSide = some sd := by
  unfold levelSideMatches at h
  cases hf : L.find? (fun l => l.index == i) with
  | none => rw [hf] at h; exact absurd h (by simp)
  | some lv =>
      rw [hf] at h
      exact ⟨lv, rfl, of_decide_eq_true h⟩

theorem foldl_shiftAcc_sideInv (steps : Int) :
    ∀ (os : List GridOrderState) (L : List GridLevel) (accO accR : List GridOrderState),
      SideInvL L → SideInvL ((os.foldl (shiftAcc steps) (L, accO, accR)).1) := by
  intro os
  induction os with
  | nil => intro L accO accR h; exact h
  | cons o os ih =>
      intro L accO accR h
      rw [List.foldl_cons, shiftAcc_step]
      by_cases hm : levelSideMatches L (o.levelIndex - steps) o.side
      · rw [if_pos hm, if_pos hm]
        obtain ⟨lv, hfind, hside⟩ := levelSideMatches_find L (o.levelIndex - steps) o.side hm
        exact ih _ _ _ (sideInvL_setLevelOrder_some L (o.levelIndex - steps)
          (remapOrder steps o) lv hfind hside h)
      · rw [if_neg hm, if_neg hm]
        exact ih _ _ _ h

theorem buildLevelPairs_orders_none (cfg : GridStateConfig) (center : ℚ) :
    ∀ (n : Nat) (L : List GridLevel), buildLevelPairs cfg center n = .ok L →
      ∀ l ∈ L, l.order = none := by
  intro n
  induction n with
  | zero =>
      intro L h l hl
      simp only [buildLevelPairs, Except.ok.injEq] at h
      subst h
      exact absurd hl (List.not_mem_nil l)
  | succ n ih =>
      intro L h l hl
      simp only [buildLevelPairs] at h
      cases hr : buildLevelPairs cfg center n with
      | error e => rw [hr] at h; exact absurd h (by simp)
      | ok rest =>
          rw [hr] at h
          cases hpb : buildLevelPrice center (-(n + 1 : Nat) : Int) cfg.toGridSpacingConfig with
          | error e => rw [hpb] at h; exact absurd h (by simp)
          | ok pb =>
              rw [hpb] at h
              cases hps : buildLevelPrice center ((n + 1 : Nat) : Int) cfg.toGridSpacingConfig with
              | error e => rw [hps] at h; exact absurd h (by simp)
              | ok ps =>
                  rw [hps] at h
                  simp only [Except.ok.injEq] at h
                  subst h
                  rcases List.mem_append.mp hl with hmem | hmem
                  · exact ih rest hr l hmem
                  · rcases List.mem_cons.mp hmem with heq | hmem2
                    · rw [heq]
                    · rcases List.mem_cons.mp hmem2 with heq | hmem3
                      · rw [heq]
                      · exact absurd hmem3 (List.not_mem_nil l)

theorem buildLevels_sideInv (cfg : GridStateConfig) (center : ℚ)
    (L : List GridLevel) (h : buildLevels cfg center = .ok L) : SideInvL L := by
  unfold buildLevels at h
  cases hp : buildLevelPairs cfg center cfg.levels with
  | error e => rw [hp] at h; exact absurd h (by simp)
  | ok pairs =>
      rw [hp] at h
      simp only [Except.ok.injEq] at h
      subst h
      intro l hl o ho
      rcases List.mem_cons.mp hl with heq | hmem
      · rw [heq] at ho
        exact absurd ho (by simp)
      · rw [buildLevelPairs_orders_none cfg center cfg.levels pairs hp l hmem] at ho
        exact absurd ho (by simp)

/-- C5 counterexample: the claim's `o.price == L.price` half fails under a
reconciliation merge.  Grid: ABS spacing 10, one level per side, center 100;
the local BUY order at level −1 was placed at the level price 90, but the
exchange reports it (after venue-side tick rounding) at price 89.  The merge
adopts the exchange price and `upsertOrder` re-binds the order to level −1 —
whose price is 90 — because only the side is checked. -/
theorem boundOrder_price_claim_false :
    getLevel
      (upsertOrder
        ⟨some 100, none, none, none,
          [⟨0, none, 100, none⟩,
            ⟨-1, some .BUY, 90,
              some ⟨"g-BTC-BUY--1-0", none, .ACKED, .BUY, 90, 1, -1, 0, 0⟩⟩,
            ⟨1, some .SELL, 110, none⟩],
          [⟨"g-BTC-BUY--1-0", none, .ACKED, .BUY, 90, 1, -1, 0, 0⟩]⟩
        (mergeOrderFromExchange "g" "BTC"
          ⟨none, "g-BTC-BUY--1-0", some "E1", .ACKED, none, none, .BUY, 89, 1, none, none, 7⟩
          (some ⟨"g-BTC-BUY--1-0", none, .ACKED, .BUY, 90, 1, -1, 0, 0⟩)))
      (-1) =
      some ⟨-1, some .BUY, 90,
        some ⟨"g-BTC-BUY--1-0", some "E1", .ACKED, .BUY, 89, 1, -1, 0, 7⟩⟩ ∧
    (89 : ℚ) ≠ 90 := by
  constructor
  · rfl
  · norm_num

/-- C5 amended: in every state reachable through the code's mutators the side
half of the invariant holds — every order bound to a level `L` satisfies
`o.side == L.target_side`: it is preserved by `upsertOrder` (hence by
reconciliation merges, which go through it), established by `reset` and by
`shiftCenter`, and preserved by `shiftCenter` from any state.  The price half
holds at placement — `placeOrderForLevel` writes the record with the level's
price and side — but is not an invariant: a reconciliation merge adopts the
exchange-reported price, which may differ from the level price (see the
counterexample). -/
theorem sideInvariant_preserved :
    (∀ (s : GridState) (o : GridOrderState), SideInv s → SideInv (upsertOrder s o)) ∧
    (∀ (cfg : GridStateConfig) (s : GridState) (c : ℚ) (now : Int) (s' : GridState),
      GridState.reset cfg s c now = .ok s' → SideInv s') ∧
    (∀ (cfg : GridStateConfig) (s : GridState) (steps now : Int)
      (r : GridShiftResult) (s' : GridState),
      SideInv s → shiftCenter cfg s steps now = .ok (r, s') → SideInv s') ∧
    (∀ (cfg : GridConfig) (s : GridState) (level : GridLevel)
      (q : Option ExchangeQuote) (seq : Nat) (now : Int)
      (res : Except String PlaceOrderResult) (rec : GridOrderState),
      (placeOrderForLevel cfg s level q seq now res).1 = some rec →
      rec.price = level.price ∧ level.targetSide = some rec.side) := by
  refine ⟨upsertOrder_preserves_sideInv, ?_, ?_, ?_⟩
  · intro cfg s c now s' h
    unfold GridState.reset at h
    split at h
    · exact absurd h (by simp)
    · next lv hb =>
        simp only [Except.ok.injEq] at h
        rw [← h]
        exact buildLevels_sideInv cfg c lv hb
  · intro cfg s steps now r s' hinv h
    unfold shiftCenter at h
    split at h
    · exact absurd h (by simp)
    · split at h
      · simp only [Except.ok.injEq, Prod.mk.injEq] at h
        rw [← h.2]
        exact hinv
      · split at h
        · exact absurd h (by simp)
        · next newCenter hnc =>
            split at h
            · exact absurd h (by simp)
            · next newLevels hnl =>
                simp only [Except.ok.injEq, Prod.mk.injEq] at h
                rw [← h.2]
                show SideInvL _
                exact foldl_shiftAcc_sideInv steps s.orderMap newLevels [] []
                  (buildLevels_sideInv cfg newCenter newLevels hnl)
  · intro cfg s level q seq now res rec h
    unfold placeOrderForLevel at h
    split at h
    · exact absurd h (by simp)
    · next ts hts =>
        split at h
        · exact absurd h (by simp)
        · split at h
          · simp only [Option.some.injEq] at h
            rw [← h, hts]
            exact ⟨rfl, rfl⟩
          · simp only [Option.some.injEq] at h
            rw [← h, hts]
            exact ⟨rfl, rfl⟩

/-- C5 witness: the preservation theorem applied to a state with an empty
level table (for which the invariant is vacuous) and one upserted order. -/
theorem sideInvariant_preserved_witness :
    SideInv (upsertOrder ⟨none, none, none, none, [], []⟩
      ⟨"g-BTC-BUY--1-0", none, .ACKED, .BUY, 90, 1, -1, 0, 0⟩) :=
  sideInvariant_preserved.1 ⟨none, none, none, none, [], []⟩
    ⟨"g-BTC-BUY--1-0", none, .ACKED, .BUY, 90, 1, -1, 0, 0⟩
    (fun l hl => absurd hl (List.not_mem_nil l))

/-! ### C3: mark-shift confirmation window -/

theorem calcSteps_abs_100_111 :
    calculateShiftSteps (fun _ _ => (0 : Int)) 100 111 ⟨.ABS, some 10, none⟩ = .ok 1 := by
  have hd : ((111 : ℚ) - 100) = 11 := by norm_num
  have hfl : (⌊(11 : ℚ) / 10⌋ : ℤ) = 1 := by
    rw [Int.floor_eq_iff]
    constructor <;> norm_num
  have h11 : ¬((11 : ℚ) < 0) := by norm_num
  simp only [calculateShiftSteps, requireAbsSpacing]
  rw [if_neg (by norm_num : ¬((100 : ℚ) ≤ 0 ∨ (111 : ℚ) ≤ 0)),
    if_neg (by norm_num : ¬((10 : ℚ) ≤ 0)), hd]
  dsimp only
  rw [if_neg (by norm_num : ¬((11 : ℚ) = 0)), if_neg h11, if_neg h11, hfl]

/-- C3 counterexample: with ABS spacing 10 and 3 levels per side, center 100
and mark 111 give a cross-step count of exactly 1.  Even with a same-signed
confirmation window opened at t = 0 and the signal arriving at t = 2500 ms
(past the 2000 ms deadline), `processQuote` takes the `|steps| < 2` jitter
branch: the window is reset and no shift happens — contradicting the claim
that the center then shifts by exactly 1 step. -/
theorem markShift_one_claim_false :
    processQuoteDecision ⟨⟨.ABS, some 10, none⟩, 3⟩ (fun _ _ => 0)
        (some 100) ⟨some 0, some 1⟩ 111 2500 = (.jitterSync, ⟨none, none⟩) ∧
    (2500 : Int) - 0 ≥ markShiftConfirmMs ∧
    QuoteAction.jitterSync ≠ QuoteAction.confirmShift 1 := by
  refine ⟨?_, by norm_num [markShiftConfirmMs], by simp⟩
  simp only [processQuoteDecision, calcSteps_abs_100_111]
  norm_num

/-- C3 amended: a cross-step count with `|steps| = 1` (any spacing mode;
`steps` is whatever the mode's computation returned) never shifts the center:
when `1 < levels` the quote takes the jitter branch, which resets the
confirmation window and only syncs, no matter how much time has passed.  The
2000 ms confirmation window governs `2 ≤ |steps| < levels`: a first or
sign-flipped signal (re)starts the window and only syncs; a same-signed
signal younger than 2000 ms only syncs; a same-signed signal at or past the
deadline yields the `confirmShift steps` action — the branch that calls
`shiftCenter(steps)`, shifting by exactly the computed step count. -/
theorem markShiftWindow_correct (cfg : GridStrategyConfig) (pf : ℚ → ℚ → Int)
    (center mark : ℚ) (confirm : ShiftConfirmState) (now : Int) (steps : Int)
    (hok : calculateShiftSteps pf center mark cfg.toGridSpacingConfig = .ok steps) :
    (steps.natAbs = 1 → 1 < cfg.levels →
      processQuoteDecision cfg pf (some center) confirm mark now =
        (.jitterSync, ⟨none, none⟩)) ∧
    (2 ≤ steps.natAbs → steps.natAbs < cfg.levels →
      ((confirm.pendingMarkShiftStartedAt = none →
        processQuoteDecision cfg pf (some center) confirm mark now =
          (.syncOnly, ⟨some now, some (if steps > 0 then 1 else -1)⟩)) ∧
      (∀ t0, confirm.pendingMarkShiftStartedAt = some t0 →
        confirm.pendingMarkShiftSign ≠ some (if steps > 0 then 1 else -1) →
        processQuoteDecision cfg pf (some center) confirm mark now =
          (.syncOnly, ⟨some now, some (if steps > 0 then 1 else -1)⟩)) ∧
      (∀ t0, confirm.pendingMarkShiftStartedAt = some t0 →
        confirm.pendingMarkShiftSign = some (if steps > 0 then 1 else -1) →
        now - t0 < markShiftConfirmMs →
        processQuoteDecision cfg pf (some center) confirm mark now =
          (.syncOnly, confirm)) ∧
      (∀ t0, confirm.pendingMarkShiftStartedAt = some t0 →
        confirm.pendingMarkShiftSign = some (if steps > 0 then 1 else -1) →
        markShiftConfirmMs ≤ now - t0 →
        processQuoteDecision cfg pf (some center) confirm mark now =
          (.confirmShift steps, ⟨none, none⟩)))) := by
  constructor
  · intro h1 hlev
    simp only [processQuoteDecision, hok]
    rw [if_neg (by omega : ¬steps = 0), if_neg (by omega : ¬steps.natAbs ≥ cfg.levels),
      if_pos (by omega : steps.natAbs < 2)]
  · intro h2 hlt
    have hn0 : ¬steps = 0 := by omega
    have hge : ¬steps.natAbs ≥ cfg.levels := by omega
    have hj : ¬steps.natAbs < 2 := by omega
    refine ⟨?_, ?_, ?_, ?_⟩
    · intro hstart
      simp only [processQuoteDecision, hok]
      rw [if_neg hn0, if_neg hge, if_neg hj]
      simp [shouldConfirmMarkShift, hstart]
    · intro t0 hstart hsign
      simp only [processQuoteDecision, hok]
      rw [if_neg hn0, if_neg hge, if_neg hj]
      simp [shouldConfirmMarkShift, hstart, hsign]
    · intro t0 hstart hsign hlt2
      simp only [processQuoteDecision, hok]
      rw [if_neg hn0, if_neg hge, if_neg hj]
      simp [shouldConfirmMarkShift, hstart, hsign, hlt2]
    · intro t0 hstart hsign hge2
      have hnlt : ¬(now - t0 < markShiftConfirmMs) := by omega
      simp only [processQuoteDecision, hok]
      rw [if_neg hn0, if_neg hge, if_neg hj]
      simp [shouldConfirmMarkShift, hstart, hsign, hnlt]

/-- C3 witness: the amended theorem at a confirmed 2-step shift — ABS spacing
10, 3 levels, center 100, mark 125 (steps = 2), window opened at t = 0 with
matching sign, signal at t = 2500 ms ≥ 2000 ms: the decision is
`confirmShift 2`. -/
theorem markShiftWindow_correct_witness :
    processQuoteDecision ⟨⟨.ABS, some 10, none⟩, 3⟩ (fun _ _ => 0)
      (some 100) ⟨some 0, some 1⟩ 125 2500 = (.confirmShift 2, ⟨none, none⟩) :=
  ((markShiftWindow_correct ⟨⟨.ABS, some 10, none⟩, 3⟩ (fun _ _ => 0) 100 125
      ⟨some 0, some 1⟩ 2500 2
      (by
        have hd : ((125 : ℚ) - 100) = 25 := by norm_num
        have hfl : (⌊(25 : ℚ) / 10⌋ : ℤ) = 2 := by
          rw [Int.floor_eq_iff]
          constructor <;> norm_num
        have h25 : ¬((25 : ℚ) < 0) := by norm_num
        simp only [calculateShiftSteps, requireAbsSpacing]
        rw [if_neg (by norm_num : ¬((100 : ℚ) ≤ 0 ∨ (125 : ℚ) ≤ 0)),
          if_neg (by norm_num : ¬((10 : ℚ) ≤ 0)), hd]
        dsimp only
        rw [if_neg (by norm_num : ¬((25 : ℚ) = 0)), if_neg h25, if_neg h25, hfl])).2
    (by norm_num) (by norm_num)).2.2.2 0 rfl rfl (by norm_num [markShiftConfirmMs])

/-! ### C9: cancel-failure reconciliation -/

/-- C9: when the adapter's cancel call throws, the cancel path never writes a
CANCELLED record on its own: it looks the order up by client id and (a) on a
found order adopts the exchange-reported status, exchange order id and
timestamp, (b) on a not-found result marks the order UNKNOWN, and (c) when
the lookup itself throws leaves the local state untouched; the only way a
CANCELLED status can be written on this path is by adopting an
exchange-reported CANCELLED. -/
theorem cancelFailure_reconciles (s : GridState) (order : GridOrderState) (e : String)
    (lookupRes : Except String (Option ExchangeOrder)) (now : Int) :
    (∀ latest, lookupRes = .ok (some latest) →
      cancelSingleOrder s order (.error e) lookupRes now =
        (upsertOrder s
          { order with
            status := latest.status,
            exchangeOrderId := latest.exchangeOrderId.or order.exchangeOrderId,
            updatedAt := latest.updatedAt },
          some { order with
            status := latest.status,
            exchangeOrderId := latest.exchangeOrderId.or order.exchangeOrderId,
            updatedAt := latest.updatedAt })) ∧
    (lookupRes = .ok none →
      cancelSingleOrder s order (.error e) lookupRes now =
        (upsertOrder s { order with status := OrderStatus.UNKNOWN, updatedAt := now },
          some { order with status := OrderStatus.UNKNOWN, updatedAt := now })) ∧
    (∀ e2, lookupRes = .error e2 →
      cancelSingleOrder s order (.error e) lookupRes now = (s, none)) ∧
    (∀ w, (cancelSingleOrder s order (.error e) lookupRes now).2 = some w →
      w.status = OrderStatus.CANCELLED →
      ∃ latest, lookupRes = .ok (some latest) ∧ latest.status = OrderStatus.CANCELLED) := by
  refine ⟨?_, ?_, ?_, ?_⟩
  · intro latest hl
    simp only [cancelSingleOrder, reconcileCancelFailure, hl]
  · intro hl
    simp only [cancelSingleOrder, reconcileCancelFailure, hl]
  · intro e2 hl
    simp only [cancelSingleOrder, reconcileCancelFailure, hl]
  · intro w hw hcancelled
    simp only [cancelSingleOrder, reconcileCancelFailure] at hw
    cases hl : lookupRes with
    | error e2 =>
        rw [hl] at hw
        exact absurd hw (by simp)
    | ok latestOpt =>
        cases latestOpt with
        | none =>
            rw [hl] at hw
            simp only [Option.some.injEq] at hw
            rw [← hw] at hcancelled
            exact absurd hcancelled (by simp)
        | some latest =>
            rw [hl] at hw
            simp only [Option.some.injEq] at hw
            rw [← hw] at hcancelled
            exact ⟨latest, rfl, hcancelled⟩

/-- C9 witness: the reconciliation theorem at a concrete order whose cancel
threw and whose lookup found nothing — the record is marked UNKNOWN. -/
theorem cancelFailure_reconciles_witness :
    cancelSingleOrder ⟨none, none, none, none, [], []⟩
      ⟨"g-BTC-BUY--1-0", none, .ACKED, .BUY, 90, 1, -1, 0, 0⟩
      (.error "network") (.ok none) 9 =
      (upsertOrder ⟨none, none, none, none, [], []⟩
        ⟨"g-BTC-BUY--1-0", none, .UNKNOWN, .BUY, 90, 1, -1, 0, 9⟩,
        some ⟨"g-BTC-BUY--1-0", none, .UNKNOWN, .BUY, 90, 1, -1, 0, 9⟩) :=
  (cancelFailure_reconciles ⟨none, none, none, none, [], []⟩
    ⟨"g-BTC-BUY--1-0", none, .ACKED, .BUY, 90, 1, -1, 0, 0⟩ "network" (.ok none) 9).2.1 rfl

/-! ### C10: failed placements — helper lemmas -/

theorem find?_filter_ne (xs : List GridOrderState) (cid : String) :
    (xs.filter (fun x => !(x.clientOrderId == cid))).find?
      (fun x => x.clientOrderId == cid) = none := by
  rw [List.find?_eq_none]
  intro x hx
  have := List.mem_filter.mp hx
  simp only [Bool.not_eq_true'] at this
  simp [this.2]

theorem mem_filter_ne (xs : List GridOrderState) (cid : String) (o : GridOrderState)
    (h : o ∈ xs.filter (fun x => !(x.clientOrderId == cid))) :
    o.clientOrderId ≠ cid := by
  have := List.mem_filter.mp h
  simp only [Bool.not_eq_true'] at this
  simpa using this.2

theorem removeOrder_orderMap (s : GridState) (cid : String) (li : Option Int) :
    (removeOrder s cid li).orderMap =
      s.orderMap.filter (fun x => !(x.clientOrderId == cid)) := rfl

theorem getOrder_removeOrder_self (s : GridState) (cid : String) (li : Option Int) :
    getOrder (removeOrder s cid li) cid = none := by
  unfold getOrder
  rw [removeOrder_orderMap]
  exact find?_filter_ne s.orderMap cid

theorem find?_map_replace (o : GridOrderState) :
    ∀ (orders : List GridOrderState),
      orders.any (fun x => x.clientOrderId == o.clientOrderId) = true →
      ((orders.map (fun x => if x.clientOrderId == o.clientOrderId then o else x)).find?
        (fun x => x.clientOrderId == o.clientOrderId)) = some o := by
  intro orders
  induction orders with
  | nil => intro h; exact absurd h (by simp)
  | cons x xs ih =>
      intro h
      by_cases hx : (x.clientOrderId == o.clientOrderId) = true
      · simp only [List.map_cons]
        rw [if_pos hx]
        rw [@List.find?_cons_of_pos _ (fun x => x.clientOrderId == o.clientOrderId) o
          (List.map (fun x => if x.clientOrderId == o.clientOrderId then o else x) xs)
          (by simp)]
      · simp only [List.map_cons]
        rw [if_neg hx]
        rw [@List.find?_cons_of_neg _ (fun x => x.clientOrderId == o.clientOrderId) x
          (List.map (fun x => if x.clientOrderId == o.clientOrderId then o else x) xs)
          (by simp [hx])]
        apply ih
        simp only [List.any_cons] at h
        rcases Bool.or_eq_true_iff.mp h with hh | hh
        · exact absurd hh hx
        · exact hh

theorem find?_setMapOrder_self (orders : List GridOrderState) (o : GridOrderState) :
    (setMapOrder orders o).find? (fun x => x.clientOrderId == o.clientOrderId) = some o := by
  unfold setMapOrder
  by_cases hany : orders.any (fun x => x.clientOrderId == o.clientOrderId) = true
  · rw [if_pos hany]
    exact find?_map_replace o orders hany
  · rw [if_neg hany]
    have hnone : orders.find? (fun x => x.clientOrderId == o.clientOrderId) = none := by
      rw [List.find?_eq_none]
      intro x hx hpx
      exact hany (List.any_eq_true.mpr ⟨x, hx, hpx⟩)
    rw [find?_append_of_none _ hnone]
    rw [@List.find?_cons_of_pos _ (fun x => x.clientOrderId == o.clientOrderId) o [] (by simp)]

theorem upsertOrder_orderMap (s : GridState) (o : GridOrderState)
    (h : isTerminalOrderStatus o.status = false) :
    (upsertOrder s o).orderMap = setMapOrder s.orderMap o := by
  unfold upsertOrder
  rw [if_neg (by simp [h])]
  dsimp only
  split
  · rfl
  · split
    · split
      · rfl
      · split
        · rfl
        · rfl
    · split
      · rfl
      · rfl

theorem upsertOrder_levelMap_eq (s : GridState) (o : GridOrderState)
    (h : isTerminalOrderStatus o.status = false) :
    (upsertOrder s o).levelMap = s.levelMap ∨
    (∃ b, (upsertOrder s o).levelMap = setLevelOrder s.levelMap o.levelIndex b) := by
  unfold upsertOrder
  rw [if_neg (by simp [h])]
  dsimp only
  split
  · exact Or.inl rfl
  · split
    · split
      · exact Or.inr ⟨_, rfl⟩
      · split
        · exact Or.inr ⟨_, rfl⟩
        · exact Or.inl rfl
    · split
      · exact Or.inr ⟨_, rfl⟩
      · exact Or.inl rfl

theorem find?_setLevelOrder_self (L : List GridLevel) (i : Int) (b : Option GridOrderState) :
    (setLevelOrder L i b).find? (fun l => l.index == i) =
      (L.find? (fun l => l.index == i)).map (fun l => { l with order := b }) := by
  induction L with
  | nil => rfl
  | cons a as ih =>
      unfold setLevelOrder
      by_cases ha : a.index = i
      · rw [if_pos ha]
        rw [@List.find?_cons_of_pos _ (fun l => l.index == i) ({ a with order := b }) as
          (by simp [ha])]
        rw [@List.find?_cons_of_pos _ (fun l => l.index == i) a as (by simp [ha]),
          Option.map_some']
      · rw [if_neg ha]
        rw [@List.find?_cons_of_neg _ (fun l => l.index == i) a
          (setLevelOrder as i b) (by simp [ha])]
        rw [@List.find?_cons_of_neg _ (fun l => l.index == i) a as (by simp [ha])]
        exact ih

theorem detach_core (L : List GridLevel) (cid : String) (j : Int) :
    ∀ lv, (match L.find? (fun (l : GridLevel) => l.index == j) with
      | some level =>
        if level.order.map (fun (o : GridOrderState) => o.clientOrderId) = some cid then
          setLevelOrder L j none
        else L
      | none => L).find? (fun (l : GridLevel) => l.index == j) = some lv →
      ∀ o', lv.order = some o' → o'.clientOrderId ≠ cid := by
  intro lv hlv o' ho'
  split at hlv
  · next level heq =>
      split at hlv
      · next hbind =>
          rw [find?_setLevelOrder_self, heq, Option.map_some', Option.some.injEq] at hlv
          rw [← hlv] at ho'
          exact absurd ho' (by simp)
      · next hbind =>
          rw [heq, Option.some.injEq] at hlv
          intro hc
          apply hbind
          rw [hlv, ho', Option.map_some', hc]
  · next heq =>
      rw [heq] at hlv
      exact absurd hlv (by simp)

theorem removeOrder_levelMap_resolved (s : GridState) (cid : String) (li : Option Int)
    (j : Int)
    (hres : (match getOrder s cid with
      | some o => some o.levelIndex
      | none => li) = some j) :
    (removeOrder s cid li).levelMap =
      (match s.levelMap.find? (fun (l : GridLevel) => l.index == j) with
      | some level =>
        if level.order.map (fun (o : GridOrderState) => o.clientOrderId) = some cid then
          setLevelOrder s.levelMap j none
        else s.levelMap
      | none => s.levelMap) := by
  unfold removeOrder
  dsimp only
  rw [hres]

theorem removeOrder_detached (s : GridState) (cid : String) (li : Option Int) (j : Int)
    (hres : (match getOrder s cid with
      | some o => some o.levelIndex
      | none => li) = some j) :
    ∀ lv, (removeOrder s cid li).levelMap.find? (fun l => l.index == j) = some lv →
      ∀ o', lv.order = some o' → o'.clientOrderId ≠ cid := by
  intro lv hlv o' ho'
  rw [removeOrder_levelMap_resolved s cid li j hres] at hlv
  exact detach_core s.levelMap cid j lv hlv o' ho'

theorem upsertRejected_eq_remove (cfg : GridConfig) (level : GridLevel) (ts : OrderSide)
    (seq : Nat) (now : Int) (s : GridState) :
    upsertOrder s (rejectedOf cfg level ts seq now) =
      removeOrder s (rejectedOf cfg level ts seq now).clientOrderId
        (some (rejectedOf cfg level ts seq now).levelIndex) := by
  unfold upsertOrder
  rw [if_pos
    (show isTerminalOrderStatus (rejectedOf cfg level ts seq now).status = true from rfl)]

/-- C10: a placement whose adapter call throws — any error, transient
included — leaves no trace: the record returned is the PENDING_SEND record
transitioned to REJECTED (side, price, level and id as written before
submission), the REJECTED upsert removes it from the order map (no order with
that client id remains, in particular no PENDING_SEND one) and detaches it
from its level; and the sync pass then continues with the remaining levels,
with the pending totals and active count unchanged. -/
theorem placeOrderFailure_rollback :
    (∀ (cfg : GridConfig) (s : GridState) (level : GridLevel)
      (q : Option ExchangeQuote) (seq : Nat) (now : Int) (e : String) (ts : OrderSide),
      level.targetSide = some ts → shouldSkipPostOnlyOrder cfg level q = false →
      ∃ rec s', placeOrderForLevel cfg s level q seq now (.error e) = (some rec, s', seq + 1) ∧
        rec.status = .REJECTED ∧ rec.side = ts ∧ rec.price = level.price ∧
        rec.levelIndex = level.index ∧
        rec.clientOrderId = nextClientOrderId cfg.strategyId cfg.symbol ts level.index seq ∧
        getOrder s' rec.clientOrderId = none ∧
        (∀ o' ∈ s'.orderMap, o'.clientOrderId ≠ rec.clientOrderId) ∧
        (∀ lv, s'.levelMap.find? (fun l => l.index == level.index) = some lv →
          ∀ o', lv.order = some o' → o'.clientOrderId ≠ rec.clientOrderId)) ∧
    (∀ (cfg : GridConfig) (q : Option ExchangeQuote)
      (placeRes : Nat → Except String PlaceOrderResult) (net : ℚ) (now : Int)
      (level : GridLevel) (rest : List GridLevel) (s : GridState) (pending : ℚ × ℚ)
      (activeCount seq : Nat) (ts : OrderSide) (e : String),
      level.targetSide = some ts →
      hasActiveOrderAtLevel s level.index = false →
      activeCount < cfg.maxOpenOrders →
      canPlaceByMaxPosition ⟨ts, net, pending.1, pending.2, cfg.quantity, cfg.maxPosition⟩ = true →
      shouldSkipPostOnlyOrder cfg level q = false →
      placeRes seq = .error e →
      syncLoop cfg q placeRes net now (level :: rest) s pending activeCount seq =
        syncLoop cfg q placeRes net now rest
          (placeOrderForLevel cfg s level q seq now (.error e)).2.1 pending
          activeCount (seq + 1)) := by
  have part1 : ∀ (cfg : GridConfig) (s : GridState) (level : GridLevel)
      (q : Option ExchangeQuote) (seq : Nat) (now : Int) (e : String) (ts : OrderSide),
      level.targetSide = some ts → shouldSkipPostOnlyOrder cfg level q = false →
      ∃ rec s', placeOrderForLevel cfg s level q seq now (.error e) = (some rec, s', seq + 1) ∧
        rec.status = .REJECTED ∧ rec.side = ts ∧ rec.price = level.price ∧
        rec.levelIndex = level.index ∧
        rec.clientOrderId = nextClientOrderId cfg.strategyId cfg.symbol ts level.index seq ∧
        getOrder s' rec.clientOrderId = none ∧
        (∀ o' ∈ s'.orderMap, o'.clientOrderId ≠ rec.clientOrderId) ∧
        (∀ lv, s'.levelMap.find? (fun l => l.index == level.index) = some lv →
          ∀ o', lv.order = some o' → o'.clientOrderId ≠ rec.clientOrderId) := by
    intro cfg s level q seq now e ts hts hskip
    have hplace : placeOrderForLevel cfg s level q seq now (.error e) =
        (some (rejectedOf cfg level ts seq now),
          upsertOrder (upsertOrder s (pendingOf cfg level ts seq now))
            (rejectedOf cfg level ts seq now), seq + 1) := by
      simp only [placeOrderForLevel, hts, hskip]
      rfl
    refine ⟨rejectedOf cfg level ts seq now, _, hplace, rfl, rfl, rfl, rfl, rfl, ?_, ?_, ?_⟩
    · -- removed from the order map
      have hterm : isTerminalOrderStatus (rejectedOf cfg level ts seq now).status = true := rfl
      rw [upsertRejected_eq_remove cfg level ts seq now _]
      exact getOrder_removeOrder_self _ _ _
    · intro o' ho'
      rw [upsertRejected_eq_remove cfg level ts seq now _, removeOrder_orderMap] at ho'
      exact mem_filter_ne _ _ o' ho'
    · intro lv hlv o' ho'
      rw [upsertRejected_eq_remove cfg level ts seq now _] at hlv
      refine removeOrder_detached
        (upsertOrder s (pendingOf cfg level ts seq now))
        (rejectedOf cfg level ts seq now).clientOrderId
        (some (rejectedOf cfg level ts seq now).levelIndex) level.index ?_ lv hlv o' ho'
      have hpending : getOrder (upsertOrder s (pendingOf cfg level ts seq now))
          (rejectedOf cfg level ts seq now).clientOrderId =
          some (pendingOf cfg level ts seq now) := by
        unfold getOrder
        rw [upsertOrder_orderMap s (pendingOf cfg level ts seq now) rfl]
        exact find?_setMapOrder_self s.orderMap (pendingOf cfg level ts seq now)
      rw [hpending]
      rfl
  refine ⟨part1, ?_⟩
  intro cfg q placeRes net now level rest s pending activeCount seq ts e hts hactive hcap
    hguard hskip hres
  obtain ⟨rec, s', hplace, hrej, _⟩ :=
    part1 cfg s level q seq now e ts hts hskip
  simp only [syncLoop, hts]
  rw [if_neg (by simp [hactive] : ¬(hasActiveOrderAtLevel s level.index = true)),
    if_neg (by omega : ¬(activeCount ≥ cfg.maxOpenOrders)),
    if_neg (by simp [hguard] :
      ¬((!canPlaceByMaxPosition
        ⟨ts, net, pending.1, pending.2, cfg.quantity, cfg.maxPosition⟩) = true))]
  rw [hres, hplace]
  dsimp only
  rw [if_pos (show isTerminalOrderStatus rec.status = true by rw [hrej]; rfl)]

/-- C10 witness: a failed placement at the BUY level −1 of an ABS grid —
the returned record is REJECTED and gone from the state, and the pass
continues. -/
theorem placeOrderFailure_rollback_witness :
    ∃ rec s', placeOrderForLevel
        ⟨"g", "BTC", 1, .ABS, some 10, none, 1, false, 5000, 10, 10⟩
        ⟨some 100, none, none, none, [], []⟩
        ⟨-1, some .BUY, 90, none⟩ none 0 7 (.error "boom") = (some rec, s', 0 + 1) ∧
      rec.status = .REJECTED ∧ rec.side = .BUY ∧
      rec.price = (⟨-1, some .BUY, 90, none⟩ : GridLevel).price ∧
      rec.levelIndex = (⟨-1, some .BUY, 90, none⟩ : GridLevel).index ∧
      rec.clientOrderId = nextClientOrderId "g" "BTC" .BUY (-1) 0 ∧
      getOrder s' rec.clientOrderId = none ∧
      (∀ o' ∈ s'.orderMap, o'.clientOrderId ≠ rec.clientOrderId) ∧
      (∀ lv, s'.levelMap.find?
          (fun l => l.index == (⟨-1, some .BUY, 90, none⟩ : GridLevel).index) = some lv →
        ∀ o', lv.order = some o' → o'.clientOrderId ≠ rec.clientOrderId) :=
  placeOrderFailure_rollback.1
    ⟨"g", "BTC", 1, .ABS, some 10, none, 1, false, 5000, 10, 10⟩
    ⟨some 100, none, none, none, [], []⟩
    ⟨-1, some .BUY, 90, none⟩ none 0 7 "boom" .BUY rfl rfl

end PerpGrid
